import Mathlib

/-!
# bmp-img-binarization: a shallow embedding of `bmp_utils.c` and `img_bin.c`

The C program reads a 24-bit BMP file, thresholds every pixel to black or
white and writes the result to `out.bmp`.  This file translates the program
function by function and proves properties of the translation.

Conventions of the embedding

* A byte is a `Fin 256`.  Every other unsigned C integer is a `Nat`; where
  the C type can wrap, the wrap is written out with `%`.
* The target is a little-endian LP64 machine with glibc (x86-64 Linux):
  `*((uint32_t *) p)` is a little-endian load, `size_t` and `long` have 64
  bits, `int` and `unsigned` have 32.
* A `FILE` opened for reading is its content together with a cursor.  The
  input file is not changed while the program runs (in particular it is not
  `out.bmp` itself).
* Everything the program cannot decide by itself is a field of `Env`: which
  files can be opened, whether `realloc` succeeds, which bytes lie behind
  the end of a heap buffer, what a fresh allocation contains, how many bytes
  the output file accepts.  Theorems quantify over every `Env`.
* `malloc` results that the source uses unchecked are taken to be valid.
* `printf` output is the list of `Msg` values a function returns, one
  constructor for each call site of `printf`.
* The loop counters are C `int`s compared against a `size_t` bound.  The
  embedding keeps the counter as an `Int`: the comparison converts it to
  `size_t`, and `i++` wraps in 32-bit two's complement, as a plain build
  does (C leaves the overflow undefined).  A loop over more than `2^31`
  pixels therefore ends after `2^31` passes.
-/

namespace BmpBin

/-! ## Bytes, buffers and streams -/

/-- One octet (`uint8_t`). -/
abbrev Byte := Fin 256

/-- Read the byte at index `k` of a heap buffer that holds `buf`; an index
past the end of `buf` finds whatever `behind` says lies there. -/
def peek (buf : List Byte) (behind : Nat → Byte) (k : Nat) : Byte :=
  if k < buf.length then buf.getD k 0 else behind k

/-- The load `*((uint16_t *) (mem + off))` on a little-endian machine. -/
def load16 (mem : Nat → Byte) (off : Nat) : Nat :=
  (mem off).val + 256 * (mem (off + 1)).val

/-- The load `*((uint32_t *) (mem + off))` on a little-endian machine. -/
def load32 (mem : Nat → Byte) (off : Nat) : Nat :=
  (mem off).val + 256 * (mem (off + 1)).val + 65536 * (mem (off + 2)).val
    + 16777216 * (mem (off + 3)).val

/-- The four bytes that represent a `uint32_t` in memory. -/
def obj_bytes32 (x : Nat) : List Byte :=
  [Fin.ofNat x, Fin.ofNat (x / 256), Fin.ofNat (x / 65536), Fin.ofNat (x / 16777216)]

/-- A stream opened with `fopen(name, "rb")`: the content of the file and
the read cursor. -/
structure FILE where
  bytes : List Byte
  pos : Nat
deriving DecidableEq, Repr

/-- The call `fread(buf, size, count, fp)`.  Returns the bytes stored into
`buf`, the number of complete items (the return value of `fread`) and the
stream with its cursor advanced by the number of bytes transferred. -/
def fread (size count : Nat) (fp : FILE) : List Byte × Nat × FILE :=
  let got := (fp.bytes.drop fp.pos).take (size * count)
  (got, got.length / size, { fp with pos := fp.pos + got.length })

/-- The call `fseek(fp, offset, whence)` with `whence` 0 (`SEEK_SET`),
1 (`SEEK_CUR`) or 2 (`SEEK_END`).  A seek to a negative position (or with
another `whence`) fails and leaves the cursor alone; the source never looks
at the return value. -/
def fseek (fp : FILE) (offset : Int) (whence : Nat) : FILE :=
  let base : Option Int :=
    if whence = 0 then some 0
    else if whence = 1 then some (fp.pos : Int)
    else if whence = 2 then some (fp.bytes.length : Int)
    else none
  match base with
  | none => fp
  | some b => if b + offset < 0 then fp else { fp with pos := (b + offset).toNat }

/-- The stream behind `fopen("out.bmp", "wb")`: what has been written, and
how many more bytes the device accepts. -/
structure OFILE where
  bytes : List Byte
  room : Nat
deriving DecidableEq, Repr

/-- The call `fwrite(buf, 1, buf.length, out)`.  Returns the number of bytes
written and the stream. -/
def fwrite (buf : List Byte) (out : OFILE) : Nat × OFILE :=
  let w := buf.take out.room
  (w.length, { bytes := out.bytes ++ w, room := out.room - w.length })

/-! ## The `int` loop counter -/

/-- The statement `i++` on an `int`.  C leaves the increment of `INT_MAX`
undefined; a plain build wraps in 32-bit two's complement, and so does this
function. -/
def int_incr (i : Int) : Int :=
  (i + 1 + 2147483648) % 4294967296 - 2147483648

/-- The conversion of an `int` to the 64-bit `size_t` that the comparison
`i < num_of_pixels` performs. -/
def int_to_size_t (i : Int) : Nat :=
  (i % 18446744073709551616).toNat

/-! ## `bmp_utils.h` -/

def BMP_HEADER_SIZE : Nat := 14

def BMP_HEADER_MAGIC_ID_OFF : Nat := 0

def BMP_HEADER_FILE_SIZE_OFF : Nat := 2

def BMP_HEADER_DATA_OFFSET_OFF : Nat := 10

def BMP_MAGIC_ID : Nat := 0x4D42

def BMP_INFO_HEADER_SIZE_OFF : Nat := 0

def BMP_INFO_IMG_WIDTH_OFF : Nat := 4

def BMP_INFO_IMG_HEIGHT_OFF : Nat := 8

def BMP_INFO_PLANES_OFF : Nat := 12

def BMP_INFO_BIT_CNT_OFF : Nat := 14

def BMP_INFO_COMPRESSION_OFF : Nat := 16

def BMP_INFO_IMG_SIZE_OFF : Nat := 20

def BMP_INFO_XRES_OFF : Nat := 24

def BMP_INFO_YRES_OFF : Nat := 28

def BMP_INFO_COLOR_NUM_OFF : Nat := 32

def BMP_INFO_IMP_COLOR_NUM_OFF : Nat := 36

/-- Header of a BMP file (`bmp_header_t`). -/
structure bmp_header_t where
  magic_id : Nat
  file_size : Nat
  reserved : Nat
  data_offset : Nat
deriving DecidableEq, Repr

/-- Info header of a BMP file (`bmp_info_t`). -/
structure bmp_info_t where
  info_size : Nat
  img_width : Nat
  img_height : Nat
  planes : Nat
  bit_cnt : Nat
  compression : Nat
  img_size : Nat
  x_res : Nat
  y_res : Nat
  colors_num : Nat
  imp_colors_num : Nat
deriving DecidableEq, Repr

/-- One pixel (`bmp_pixel_t`). -/
structure bmp_pixel_t where
  red : Byte
  green : Byte
  blue : Byte
deriving DecidableEq, Repr

/-- The BMP file handle (`bmp_file_handle_t`).  `file_ptr = none` is the
`NULL` stream; `data` is the pixel array the `data` pointer points to. -/
structure bmp_file_handle_t where
  file_ptr : Option FILE
  filename : String
  header : bmp_header_t
  info : bmp_info_t
  data : List bmp_pixel_t
deriving DecidableEq, Repr

/-! ## The environment and the console -/

/-- What the program depends on and cannot decide by itself. -/
structure Env where
  /-- Content of the file `fopen(name, "rb")` opens, `none` if it fails. -/
  fopen_rb : String → Option (List Byte)
  /-- Whether `realloc(buff, size)` returns a buffer. -/
  realloc_ok : Nat → Bool
  /-- The byte found at index `k` of a heap buffer that is shorter than `k`. -/
  junk : Nat → Byte
  /-- The content of slot `i` of a fresh `malloc` of pixels. -/
  uninit_pixel : Nat → bmp_pixel_t
  /-- Whether `fopen("out.bmp", "wb")` succeeds. -/
  fopen_wb : Bool
  /-- How many bytes the output file accepts. -/
  out_room : Nat

/-- The lines the program prints, one constructor for each `printf` call
site. -/
inductive Msg where
  /-- The lines of `print_bmp_info`: the name and the values handed to `printf`. -/
  | file_info (name : String) (values : List Nat)
  /-- Printed by `check_format`: this kind of BMP file is not supported. -/
  | not_supported
  /-- Printed by `bmp_open`: the named file could not be opened. -/
  | cannot_open (name : String)
  /-- Printed by `bmp_verify`: the header could not be read. -/
  | header_short
  /-- Printed by `bmp_verify`: the file is not a BMP. -/
  | not_a_bmp
  /-- Printed by `bmp_verify`: the info header size could not be read. -/
  | info_size_short
  /-- Printed by `bmp_verify`: the buffer could not be reallocated. -/
  | realloc_failed
  /-- Printed by `bmp_verify`: the info of the BMP could not be read. -/
  | info_short
  /-- Printed by `bmp_load_img`: the next pixel could not be read. -/
  | pixel_short
  /-- Printed by `bmp_write_img`: `out.bmp` could not be opened or created. -/
  | cannot_create
  /-- Printed by `bmp_write_img`: the header could not be copied. -/
  | header_copy_failed
  /-- Printed by `bmp_write_img`: the next pixel could not be written. -/
  | pixel_write_failed
  /-- Printed by `main`: the program needs exactly two arguments. -/
  | usage
  /-- Printed by `main`: the second parameter must be an int in range 0..255. -/
  | bad_threshold
  /-- Printed by `main` before `bmp_open`. -/
  | opening (name : String)
  /-- Printed by `main` before `bmp_verify`. -/
  | verifying
  /-- Printed by `main` before `bmp_load_img`. -/
  | loading
  /-- Printed by `main` before `bmp_binarization`, with the threshold. -/
  | binarizing (treshold : Nat)
  /-- Printed by `main` before `bmp_write_img`. -/
  | saving
  /-- Printed by `main` at the end of a complete run. -/
  | done
deriving DecidableEq, Repr

/-! ## `bmp_utils.c` -/

/-- The function `print_bmp_info`: the values it prints, in order.  (The
last line prints `colors_num` a second time, as the source does.) -/
def print_bmp_info (h : bmp_file_handle_t) : List Msg :=
  [Msg.file_info h.filename
    [h.header.file_size, h.info.img_width, h.info.img_height, h.info.planes,
     h.info.bit_cnt, h.info.compression, h.info.img_size, h.info.colors_num,
     h.info.colors_num]]

/-- The function `check_format`: the result and what it prints. -/
def check_format (h : bmp_file_handle_t) : Bool × List Msg :=
  if h.info.bit_cnt ≠ 24 ∨ h.info.planes ≠ 1 ∨ h.info.compression ≠ 0 then
    (false, [Msg.not_supported])
  else
    (true, [])

/-- The function `bmp_open`. -/
def bmp_open (env : Env) (h : bmp_file_handle_t) : Bool × bmp_file_handle_t × List Msg :=
  match env.fopen_rb h.filename with
  | none => (false, { h with file_ptr := none }, [Msg.cannot_open h.filename])
  | some content => (true, { h with file_ptr := some { bytes := content, pos := 0 } }, [])

/-- The function `bmp_verify`: the result, the handle afterwards and what
was printed.  (`main` calls it only with an open stream; with the `NULL`
stream the C program faults, which is rendered as a silent failure.) -/
def bmp_verify (env : Env) (h : bmp_file_handle_t) : Bool × bmp_file_handle_t × List Msg :=
  match h.file_ptr with
  | none => (false, h, [])
  | some fp0 =>
    -- fread(buff, sizeof(uint8_t), BMP_HEADER_SIZE, file_ptr)
    let r1 := fread 1 BMP_HEADER_SIZE fp0
    if r1.2.1 < BMP_HEADER_SIZE then
      (false, { h with file_ptr := some r1.2.2 }, [Msg.header_short])
    else
      let buff := peek r1.1 env.junk
      let header : bmp_header_t :=
        { h.header with
          magic_id := load16 buff BMP_HEADER_MAGIC_ID_OFF
          file_size := load32 buff BMP_HEADER_FILE_SIZE_OFF
          data_offset := load32 buff BMP_HEADER_DATA_OFFSET_OFF }
      let h1 := { h with file_ptr := some r1.2.2, header := header }
      if header.magic_id ≠ BMP_MAGIC_ID then
        (false, h1, [Msg.not_a_bmp])
      else
        -- fread(&info.info_size, sizeof(uint32_t), 1, file_ptr): the bytes
        -- that arrive replace the leading bytes of the field
        let r2 := fread 4 1 r1.2.2
        let info_size := load32 (peek r2.1 (fun k => (obj_bytes32 h.info.info_size).getD k 0)) 0
        let h2 := { h1 with file_ptr := some r2.2.2, info := { h.info with info_size := info_size } }
        if r2.2.1 ≠ 1 then
          (false, h2, [Msg.info_size_short])
        else if env.realloc_ok info_size = false then
          (false, h2, [Msg.realloc_failed])
        else
          -- fseek(file_ptr, -4, 1) and fread(buff, sizeof(uint8_t), info_size, file_ptr)
          let r3 := fread 1 info_size (fseek r2.2.2 (-4) 1)
          let h3 := { h2 with file_ptr := some r3.2.2 }
          if r3.2.1 < info_size then
            (false, h3, [Msg.info_short])
          else
            let buff := peek r3.1 env.junk
            let info : bmp_info_t :=
              { info_size := info_size
                img_width := load32 buff BMP_INFO_IMG_WIDTH_OFF
                img_height := load32 buff BMP_INFO_IMG_HEIGHT_OFF
                planes := load16 buff BMP_INFO_PLANES_OFF
                bit_cnt := load16 buff BMP_INFO_BIT_CNT_OFF
                compression := load32 buff BMP_INFO_COMPRESSION_OFF
                img_size := load32 buff BMP_INFO_IMG_SIZE_OFF
                x_res := load32 buff BMP_INFO_XRES_OFF
                y_res := load32 buff BMP_INFO_YRES_OFF
                colors_num := load32 buff BMP_INFO_COLOR_NUM_OFF
                imp_colors_num := load32 buff BMP_INFO_IMP_COLOR_NUM_OFF }
            let h4 := { h3 with info := info }
            ((check_format h4).1, h4, print_bmp_info h4 ++ (check_format h4).2)

/-- The pixel count `img_width * img_height` that `bmp_load_img`,
`bmp_binarization` and `bmp_write_img` store in `size_t num_of_pixels`: both
factors are `uint32_t`, so the product is formed in 32 bits and only then
widened. -/
def num_of_pixels (h : bmp_file_handle_t) : Nat :=
  (h.info.img_width * h.info.img_height) % 2 ^ 32

/-- The loop `for (int i = 0; i < num_of_pixels; i++)` of `bmp_load_img`, at
the test of its condition with counter `i`.  Returns whether every read
succeeded, the stream and the pixel array.  `fuel` bounds the passes still
to come; `bmp_load_img` enters with `num_of_pixels`, which is never used
up. -/
def load_loop (num_of_pixels : Nat) :
    Nat → Int → FILE → List bmp_pixel_t → Bool × FILE × List bmp_pixel_t
  | 0, _, fp, data => (true, fp, data)
  | fuel + 1, i, fp, data =>
    if int_to_size_t i < num_of_pixels then
      -- fread(pixel, sizeof(uint8_t), 3, file_ptr)
      let r := fread 1 3 fp
      if r.2.1 ≠ 3 then
        (false, r.2.2, data)
      else
        load_loop num_of_pixels fuel (int_incr i) r.2.2
          (data.set i.toNat
            { blue := r.1.getD 0 0, green := r.1.getD 1 0, red := r.1.getD 2 0 })
    else
      (true, fp, data)

/-- The function `bmp_load_img`. -/
def bmp_load_img (env : Env) (h : bmp_file_handle_t) : Bool × bmp_file_handle_t × List Msg :=
  match h.file_ptr with
  | none => (false, h, [])
  | some fp =>
    -- data = malloc(sizeof(bmp_pixel_t) * num_of_pixels)
    let data := (List.range (num_of_pixels h)).map env.uninit_pixel
    -- fseek(file_ptr, header.data_offset, 0)
    let r := load_loop (num_of_pixels h) (num_of_pixels h) 0 (fseek fp h.header.data_offset 0) data
    if r.1 then
      (true, { h with file_ptr := some r.2.1, data := r.2.2 }, [])
    else
      (false, { h with file_ptr := some r.2.1, data := r.2.2 }, [Msg.pixel_short])

/-- The loop `for (int i = 0; i < num_of_pixels; i++)` of `bmp_write_img`, at
the test of its condition with counter `i`.  A read of `data[i]` outside the
array finds `behind i`.  `fuel` bounds the passes still to come;
`bmp_write_img` enters with `num_of_pixels`, which is never used up. -/
def write_loop (behind : Nat → bmp_pixel_t) (num_of_pixels : Nat) :
    Nat → Int → List bmp_pixel_t → OFILE → Bool × OFILE
  | 0, _, _, out => (true, out)
  | fuel + 1, i, data, out =>
    if int_to_size_t i < num_of_pixels then
      let p := data.getD i.toNat (behind i.toNat)
      -- fwrite(pixel, sizeof(uint8_t), 3, out_file)
      let w := fwrite [p.blue, p.green, p.red] out
      if w.1 ≠ 3 then (false, w.2)
      else write_loop behind num_of_pixels fuel (int_incr i) data w.2
    else
      (true, out)

/-- The function `bmp_write_img`: the result, the handle afterwards, the
output stream (`none` if `out.bmp` could not be opened) and what was
printed. -/
def bmp_write_img (env : Env) (h : bmp_file_handle_t) :
    Bool × bmp_file_handle_t × Option OFILE × List Msg :=
  match h.file_ptr with
  | none => (false, h, none, [])
  | some fp =>
    if env.fopen_wb = false then
      (false, h, none, [Msg.cannot_create])
    else
      let out : OFILE := { bytes := [], room := env.out_room }
      -- fseek(file_ptr, 0, 0); fread(buff, sizeof(uint8_t), data_offset, file_ptr)
      let r := fread 1 h.header.data_offset (fseek fp 0 0)
      let h1 := { h with file_ptr := some r.2.2 }
      -- fwrite(buff, sizeof(uint8_t), data_offset, out_file): all of buff,
      -- whatever the read delivered
      let buff := (List.range h.header.data_offset).map (peek r.1 env.junk)
      let w := fwrite buff out
      if w.1 ≠ h.header.data_offset ∨ r.2.1 ≠ w.1 then
        (false, h1, some w.2, [Msg.header_copy_failed])
      else
        let l := write_loop env.uninit_pixel (num_of_pixels h) (num_of_pixels h) 0 h.data w.2
        if l.1 then
          (true, h1, some l.2, [])
        else
          (false, h1, some l.2, [Msg.pixel_write_failed])

/-- The function `bmp_cleanup`: `free(data)`. -/
def bmp_cleanup (h : bmp_file_handle_t) : bmp_file_handle_t :=
  { h with data := [] }

/-! ## `img_bin.c` -/

/-- The function `ascii_to_num`, on a character of the ASCII range. -/
def ascii_to_num (ascii_char : Char) : Int :=
  (ascii_char.toNat : Int) - 48

/-- The function `is_number`. -/
def is_number : List Char → Bool
  | [] => true
  | c :: cs =>
    if ascii_to_num c < 0 ∨ ascii_to_num c > 9 then false else is_number cs

/-- The value `(uint32_t) atoi(s)` for a string of decimal digits, the only
strings `main` hands to `atoi`: glibc computes `(int) strtol(s, NULL, 10)`,
and `strtol` stops at `LONG_MAX`. -/
def atoi_u32 (s : List Char) : Nat :=
  min (s.foldl (fun acc c => 10 * acc + (c.toNat - 48)) 0) (2 ^ 63 - 1) % 2 ^ 32

/-- The function `conv_rgb2grey`.  The weights are the `float` constants
`0.2989f = 2507355 / 2^23`, `0.5870f = 4924113 / 2^23` and
`0.1140f = 15300821 / 2^27`.  Each product with a channel value and the sum
of the three products are multiples of `2^-27` below `256`, hence exact in
`double`; the cast to `uint8_t` drops the fraction. -/
def conv_rgb2grey (pixel : bmp_pixel_t) : Nat :=
  (16 * (2507355 * pixel.red.val) + 16 * (4924113 * pixel.green.val)
    + 15300821 * pixel.blue.val) / 2 ^ 27 % 256

/-- The loop `for (int i = 0; i < num_of_pixels; i++)` of
`bmp_binarization`, at the test of its condition with counter `i`.  An index
outside the array leaves the array as it is.  `fuel` bounds the passes still
to come; `bmp_binarization` enters with `num_of_pixels`, which is never used
up. -/
def binarization_loop (treshold num_of_pixels : Nat) :
    Nat → Int → List bmp_pixel_t → List bmp_pixel_t
  | 0, _, data => data
  | fuel + 1, i, data =>
    if int_to_size_t i < num_of_pixels then
      if conv_rgb2grey (data.getD i.toNat { red := 0, green := 0, blue := 0 }) < treshold then
        binarization_loop treshold num_of_pixels fuel (int_incr i)
          (data.set i.toNat { blue := 0, green := 0, red := 0 })
      else
        binarization_loop treshold num_of_pixels fuel (int_incr i)
          (data.set i.toNat { blue := 255, green := 255, red := 255 })
    else
      data

/-- The function `bmp_binarization`. -/
def bmp_binarization (h : bmp_file_handle_t) (treshold : Nat) : bmp_file_handle_t :=
  { h with data := binarization_loop treshold (num_of_pixels h) (num_of_pixels h) 0 h.data }

/-- The handle after `memset(&bmp_handle, 0, sizeof(bmp_file_handle_t))` and
the assignment of the file name. -/
def fresh_handle (filename : String) : bmp_file_handle_t :=
  { file_ptr := none
    filename := filename
    header := { magic_id := 0, file_size := 0, reserved := 0, data_offset := 0 }
    info :=
      { info_size := 0, img_width := 0, img_height := 0, planes := 0, bit_cnt := 0,
        compression := 0, img_size := 0, x_res := 0, y_res := 0, colors_num := 0,
        imp_colors_num := 0 }
    data := [] }

/-- The function `main`, called with `argv` (program name first): the exit
status, the content of `out.bmp` if this run opened it, and what was
printed. -/
def main (env : Env) (argv : List String) : Nat × Option (List Byte) × List Msg :=
  if argv.length ≠ 3 then
    (1, none, [Msg.usage])
  else
    let h0 := fresh_handle (argv.getD 1 default)
    if is_number (argv.getD 2 default).toList = false then
      (2, none, [Msg.bad_threshold])
    else
      let tresh_tmp := atoi_u32 (argv.getD 2 default).toList
      if tresh_tmp > 255 then
        (3, none, [Msg.bad_threshold])
      else
        let treshold := tresh_tmp % 256
        let o := bmp_open env h0
        let m1 := Msg.opening h0.filename :: o.2.2
        if o.1 = false then
          (4, none, m1)
        else
          let v := bmp_verify env o.2.1
          let m2 := m1 ++ Msg.verifying :: v.2.2
          if v.1 = false then
            (5, none, m2)
          else
            let l := bmp_load_img env v.2.1
            let m3 := m2 ++ Msg.loading :: l.2.2
            if l.1 = false then
              (6, none, m3)
            else
              let b := bmp_binarization l.2.1 treshold
              let w := bmp_write_img env b
              let m4 := m3 ++ Msg.binarizing treshold :: Msg.saving :: w.2.2.2
              if w.1 = false then
                (7, w.2.2.1.map OFILE.bytes, m4)
              else
                (0, w.2.2.1.map OFILE.bytes, m4 ++ [Msg.done])

/-! ## Vocabulary of the statements -/

/-- The file seen as memory: the byte at offset `k` (zero past the end). -/
def file_mem (f : List Byte) (k : Nat) : Byte := f.getD k 0

/-- The little-endian unsigned value of the bytes `first .. last` of a file. -/
def file_field (f : List Byte) (first last : Nat) : Nat :=
  Nat.ofDigits 256 (((f.drop first).take (last + 1 - first)).map Fin.val)

/-- The pixel stored in the three file bytes at offset `q`: blue, green, red. -/
def file_pixel (f : List Byte) (q : Nat) : bmp_pixel_t :=
  { blue := f.getD q 0, green := f.getD (q + 1) 0, red := f.getD (q + 2) 0 }

/-- The header `bmp_verify` decodes from the first 14 bytes of a file. -/
def decoded_header (h : bmp_file_handle_t) (f : List Byte) : bmp_header_t :=
  { h.header with
    magic_id := load16 (file_mem f) 0
    file_size := load32 (file_mem f) 2
    data_offset := load32 (file_mem f) 10 }

/-- The info-header size the file declares: the `uint32_t` at offset 14. -/
def declared_size (f : List Byte) : Nat := load32 (file_mem f) 14

/-- The info buffer after the bulk read: the first `declared_size f` bytes
come from the file at offset 14, the rest is whatever lies behind. -/
def info_mem (env : Env) (f : List Byte) (k : Nat) : Byte :=
  if k < declared_size f then file_mem f (14 + k) else env.junk k

/-- The info header `bmp_verify` decodes from a file whose info header could
be read completely. -/
def decoded_info (env : Env) (f : List Byte) : bmp_info_t :=
  { info_size := declared_size f
    img_width := load32 (info_mem env f) 4
    img_height := load32 (info_mem env f) 8
    planes := load16 (info_mem env f) 12
    bit_cnt := load16 (info_mem env f) 14
    compression := load32 (info_mem env f) 16
    img_size := load32 (info_mem env f) 20
    x_res := load32 (info_mem env f) 24
    y_res := load32 (info_mem env f) 28
    colors_num := load32 (info_mem env f) 32
    imp_colors_num := load32 (info_mem env f) 36 }

/-- The handle `bmp_verify` leaves behind after it decoded both headers. -/
def decoded_handle (env : Env) (h : bmp_file_handle_t) (f : List Byte) : bmp_file_handle_t :=
  { h with
    file_ptr := some { bytes := f, pos := 14 + declared_size f }
    header := decoded_header h f
    info := decoded_info env f }

/-- The handle `main` passes to `bmp_verify` once the file is open. -/
def opened_handle (name : String) (f : List Byte) : bmp_file_handle_t :=
  { fresh_handle name with file_ptr := some { bytes := f, pos := 0 } }

/-- The number of passes a loop `for (int i = 0; i < n; i++)` makes. -/
def loop_passes (n : Nat) : Nat := min n 2147483648

/-- The value of an `int` counter that started at 0 and was incremented `j`
times, for `j` up to `2^31`. -/
def int_counter (j : Nat) : Int :=
  if j < 2147483648 then (j : Int) else (j : Int) - 4294967296

/-- The effect of `k` consecutive passes of the body of the loop of
`bmp_load_img`, the first at index `i`. -/
def load_passes : Nat → Nat → FILE → List bmp_pixel_t → Bool × FILE × List bmp_pixel_t
  | 0, _, fp, data => (true, fp, data)
  | k + 1, i, fp, data =>
    let r := fread 1 3 fp
    if r.2.1 ≠ 3 then
      (false, r.2.2, data)
    else
      load_passes k (i + 1) r.2.2
        (data.set i { blue := r.1.getD 0 0, green := r.1.getD 1 0, red := r.1.getD 2 0 })

/-- The effect of `k` consecutive passes of the body of the loop of
`bmp_write_img`, the first at index `i`. -/
def write_passes (behind : Nat → bmp_pixel_t) :
    Nat → Nat → List bmp_pixel_t → OFILE → Bool × OFILE
  | 0, _, _, out => (true, out)
  | k + 1, i, data, out =>
    let p := data.getD i (behind i)
    let w := fwrite [p.blue, p.green, p.red] out
    if w.1 ≠ 3 then (false, w.2) else write_passes behind k (i + 1) data w.2

/-- The effect of `k` consecutive passes of the body of the loop of
`bmp_binarization`, the first at index `i`. -/
def binarization_passes (treshold : Nat) : Nat → Nat → List bmp_pixel_t → List bmp_pixel_t
  | 0, _, data => data
  | k + 1, i, data =>
    if conv_rgb2grey (data.getD i { red := 0, green := 0, blue := 0 }) < treshold then
      binarization_passes treshold k (i + 1) (data.set i { blue := 0, green := 0, red := 0 })
    else
      binarization_passes treshold k (i + 1) (data.set i { blue := 255, green := 255, red := 255 })

/-! ## Sample inputs -/

/-- The 54 header bytes of a BMP file with the given width, height and bit
count: magic `BM`, data offset 54, info size 40, one plane, no compression. -/
def sample_header (w0 w1 w2 w3 h0 h1 h2 h3 bits : Byte) : List Byte :=
  [0x42, 0x4D, 66, 0, 0, 0, 0, 0, 0, 0, 54, 0, 0, 0,
   40, 0, 0, 0, w0, w1, w2, w3, h0, h1, h2, h3, 1, 0, bits, 0,
   0, 0, 0, 0, 12, 0, 0, 0, 0, 0, 0, 0, 0, 0, 0, 0, 0, 0, 0, 0, 0, 0, 0, 0]

/-- A 2 x 2 image of 24 bits: the pixels (10,10,10), (200,200,200),
(50,50,50) and (250,250,250). -/
def sample_bmp : List Byte :=
  sample_header 2 0 0 0 2 0 0 0 24
    ++ [10, 10, 10, 200, 200, 200, 50, 50, 50, 250, 250, 250]

/-- The same image declared with 8 bits per pixel. -/
def sample_bmp_8bit : List Byte :=
  sample_header 2 0 0 0 2 0 0 0 8
    ++ [10, 10, 10, 200, 200, 200, 50, 50, 50, 250, 250, 250]

/-- The first ten bytes of the sample image. -/
def sample_bmp_cut : List Byte := sample_bmp.take 10

/-- A header that declares 65536 x 65536 pixels, with no pixel data. -/
def sample_bmp_huge : List Byte :=
  sample_header 0 0 1 0 0 0 1 0 24

/-- The header of a top-down image: width 1, height -2 as a signed 32-bit
value, and nothing behind the header. -/
def sample_bmp_topdown : List Byte :=
  sample_header 1 0 0 0 0xFE 0xFF 0xFF 0xFF 24

/-- An image of width 0 followed by bytes that are no pixels. -/
def sample_bmp_empty : List Byte :=
  sample_header 0 0 0 0 2 0 0 0 24 ++ [1, 2, 3, 4]

/-- An environment in which every file is `content`, every allocation
succeeds and the output file takes up to 1000 bytes. -/
def sample_env (content : List Byte) : Env :=
  { fopen_rb := fun _ => some content
    realloc_ok := fun _ => true
    junk := fun _ => 0
    uninit_pixel := fun _ => { red := 0, green := 0, blue := 0 }
    fopen_wb := true
    out_room := 1000 }

/-- The colour `bmp_binarization` gives a pixel: black when its grey value
is below the threshold, white otherwise. -/
def binarized (treshold : Nat) (p : bmp_pixel_t) : bmp_pixel_t :=
  if conv_rgb2grey p < treshold then { red := 0, green := 0, blue := 0 }
  else { red := 255, green := 255, blue := 255 }

/-- The three bytes `bmp_write_img` emits for a pixel: blue, green, red. -/
def pixel_bytes (p : bmp_pixel_t) : List Byte := [p.blue, p.green, p.red]

/-- The constant `R_WEIGHT` of `img_bin.c`: `0.2989f`, the binary32 number
nearest to 0.2989. -/
def R_WEIGHT : ℚ := 2507355 / 2 ^ 23

/-- The constant `G_WEIGHT` of `img_bin.c`: `0.5870f`, the binary32 number
nearest to 0.5870. -/
def G_WEIGHT : ℚ := 4924113 / 2 ^ 23

/-- The constant `B_WEIGHT` of `img_bin.c`: `0.1140f`, the binary32 number
nearest to 0.1140. -/
def B_WEIGHT : ℚ := 15300821 / 2 ^ 27

/-- The sample image after `bmp_verify` and `bmp_load_img`. -/
def sample_loaded : bmp_file_handle_t :=
  (bmp_load_img (sample_env sample_bmp)
    (bmp_verify (sample_env sample_bmp) (opened_handle "in.bmp" sample_bmp)).2.1).2.1

/-- A handle of one pure-white pixel. -/
def sample_white : bmp_file_handle_t :=
  { fresh_handle "white.bmp" with
    info := { (fresh_handle "white.bmp").info with img_width := 1, img_height := 1 }
    data := [{ red := 255, green := 255, blue := 255 }] }



/-- The sample image with its magic changed to `BZ`. -/
def sample_bmp_bz : List Byte := [0x42, 0x5A] ++ sample_bmp.drop 2

/-- The sample image without its last pixel. -/
def sample_bmp_truncated : List Byte := sample_bmp.take 63

/-- An environment in which no file can be opened. -/
def sample_env_no_file : Env :=
  { sample_env [] with fopen_rb := fun _ => none }





/-- The header that declares 65536 x 65536 pixels, followed by twelve bytes. -/
def sample_bmp_huge_tail : List Byte :=
  sample_bmp_huge ++ [10, 10, 10, 200, 200, 200, 50, 50, 50, 250, 250, 250]

/-- The handle after `bmp_verify` and `bmp_load_img` on a file, in the sample
environment. -/
def sample_loaded_from (content : List Byte) : bmp_file_handle_t :=
  (bmp_load_img (sample_env content)
    (bmp_verify (sample_env content) (opened_handle "in.bmp" content)).2.1).2.1

/-- The ten loads with which `bmp_verify` takes the fields out of the info
buffer (`bmp_utils.c`, the ten assignments after the bulk read): the offset
of each load and the number of bytes it reads. -/
def info_field_reads : List (Nat × Nat) :=
  [(BMP_INFO_IMG_WIDTH_OFF, 4), (BMP_INFO_IMG_HEIGHT_OFF, 4), (BMP_INFO_PLANES_OFF, 2),
   (BMP_INFO_BIT_CNT_OFF, 2), (BMP_INFO_COMPRESSION_OFF, 4), (BMP_INFO_IMG_SIZE_OFF, 4),
   (BMP_INFO_XRES_OFF, 4), (BMP_INFO_YRES_OFF, 4), (BMP_INFO_COLOR_NUM_OFF, 4),
   (BMP_INFO_IMP_COLOR_NUM_OFF, 4)]

/-- A 2 x 2 image of 24 bits with the 12-byte info header of OS/2 bitmaps
(size, 16-bit width and height, planes, bit count), data offset 26. -/
def sample_bmp_core : List Byte :=
  [0x42, 0x4D, 38, 0, 0, 0, 0, 0, 0, 0, 26, 0, 0, 0,
   12, 0, 0, 0, 2, 0, 2, 0, 1, 0, 24, 0,
   10, 10, 10, 200, 200, 200, 50, 50, 50, 250, 250, 250]

/-- The sample environment with other bytes behind the heap buffers: 1 at
index 12, 24 at index 14, 0 elsewhere. -/
def sample_env_behind (content : List Byte) : Env :=
  { sample_env content with junk := fun k => if k = 12 then 1 else if k = 14 then 24 else 0 }

/-- The 54 header bytes of an image of one row of 2147483649 pixels
(`2^31 + 1`) of 24 bits. -/
def sample_header_long : List Byte :=
  sample_header 1 0 0 0x80 1 0 0 0 24

/-- The long row, complete: the header and 2147483649 pixels (10,10,10). -/
def sample_bmp_long : List Byte :=
  sample_header_long ++ List.replicate (3 * 2147483649) 10

/-- The long row cut behind pixel 2147483647: the last pixel is missing. -/
def sample_bmp_long_cut : List Byte :=
  sample_header_long ++ List.replicate (3 * 2147483648) 10

/-- The sample environment with an output file that takes `2^33` bytes. -/
def sample_env_long (content : List Byte) : Env :=
  { sample_env content with out_room := 8589934592 }

/-- A handle of one row of 2147483649 pixels, all equal to `p`. -/
def sample_row_long (p : bmp_pixel_t) : bmp_file_handle_t :=
  { fresh_handle "long.bmp" with
    info := { (fresh_handle "long.bmp").info with img_width := 2147483649, img_height := 1 }
    data := List.replicate 2147483649 p }

/-! ## Streams and buffers -/

theorem fread_one (n : Nat) (f : List Byte) (p : Nat) :
    fread 1 n { bytes := f, pos := p } =
      ((f.drop p).take n, min n (f.length - p), { bytes := f, pos := p + min n (f.length - p) }) := by
  simp [fread]

theorem fseek_set (fp : FILE) (n : Nat) : fseek fp (n : Int) 0 = { fp with pos := n } := by
  simp [fseek]

theorem fseek_back4 (f : List Byte) (p : Nat) (hp : 4 ≤ p) :
    fseek { bytes := f, pos := p } (-4) 1 = { bytes := f, pos := p - 4 } := by
  simp only [fseek]
  simp only [one_ne_zero, if_false, if_true]
  rw [if_neg (by omega)]
  congr 1
  omega

theorem peek_take_drop (f : List Byte) (p n k : Nat) (behind : Nat → Byte)
    (hk : k < n) (hf : p + n ≤ f.length) :
    peek ((f.drop p).take n) behind k = f.getD (p + k) 0 := by
  have h1 : k < ((f.drop p).take n).length := by simp; omega
  simp only [peek, h1, if_true]
  simp [List.getD_eq_getElem?_getD, List.getElem?_take, hk]

theorem peek_take_drop_behind (f : List Byte) (p n k : Nat) (behind : Nat → Byte)
    (hk : n ≤ k) :
    peek ((f.drop p).take n) behind k = behind k := by
  have h1 : ¬ k < ((f.drop p).take n).length := by simp; omega
  simp only [peek, h1, if_false]

theorem load16_congr (m1 m2 : Nat → Byte) (off : Nat)
    (h : ∀ k, k < 2 → m1 (off + k) = m2 (off + k)) : load16 m1 off = load16 m2 off := by
  have h0 := h 0 (by omega)
  have h1 := h 1 (by omega)
  simp only [Nat.add_zero] at h0
  simp only [load16, h0, h1]

theorem load32_congr (m1 m2 : Nat → Byte) (off : Nat)
    (h : ∀ k, k < 4 → m1 (off + k) = m2 (off + k)) : load32 m1 off = load32 m2 off := by
  have h0 := h 0 (by omega)
  have h1 := h 1 (by omega)
  have h2 := h 2 (by omega)
  have h3 := h 3 (by omega)
  simp only [Nat.add_zero] at h0
  simp only [load32, h0, h1, h2, h3]

/-! ## The paths of `bmp_verify` -/

theorem verify_header_short (env : Env) (h : bmp_file_handle_t) (f : List Byte)
    (hfp : h.file_ptr = some { bytes := f, pos := 0 }) (hlen : f.length < 14) :
    bmp_verify env h =
      (false, { h with file_ptr := some { bytes := f, pos := f.length } }, [Msg.header_short]) := by
  have hm : min 14 f.length = f.length := by omega
  simp [bmp_verify, hfp, fread_one, BMP_HEADER_SIZE, hlen, hm]

theorem verify_header_buf (env : Env) (f : List Byte) (hlen : 14 ≤ f.length) (k : Nat) (hk : k < 14) :
    peek ((f.drop 0).take 14) env.junk k = file_mem f k := by
  rw [peek_take_drop f 0 14 k env.junk hk (by omega)]
  simp [file_mem]

theorem verify_bad_magic (env : Env) (h : bmp_file_handle_t) (f : List Byte)
    (hfp : h.file_ptr = some { bytes := f, pos := 0 }) (hlen : 14 ≤ f.length)
    (hmagic : load16 (file_mem f) 0 ≠ BMP_MAGIC_ID) :
    bmp_verify env h =
      (false, { h with file_ptr := some { bytes := f, pos := 14 }, header := decoded_header h f },
        [Msg.not_a_bmp]) := by
  have hm : min 14 f.length = 14 := by omega
  have e16 : load16 (peek ((f.drop 0).take 14) env.junk) 0 = load16 (file_mem f) 0 :=
    load16_congr _ _ _ (fun k hk => verify_header_buf env f hlen _ (by omega))
  have e2 : load32 (peek ((f.drop 0).take 14) env.junk) 2 = load32 (file_mem f) 2 :=
    load32_congr _ _ _ (fun k hk => verify_header_buf env f hlen _ (by omega))
  have e10 : load32 (peek ((f.drop 0).take 14) env.junk) 10 = load32 (file_mem f) 10 :=
    load32_congr _ _ _ (fun k hk => verify_header_buf env f hlen _ (by omega))
  simp only [bmp_verify, hfp, fread_one, BMP_HEADER_SIZE, BMP_HEADER_MAGIC_ID_OFF,
    BMP_HEADER_FILE_SIZE_OFF, BMP_HEADER_DATA_OFFSET_OFF, Nat.sub_zero, hm, Nat.zero_add,
    lt_irrefl, if_false, e16, e2, e10, hmagic, ne_eq, not_false_eq_true, if_true, decoded_header]

theorem fread_u32 (f : List Byte) (p : Nat) :
    fread 4 1 { bytes := f, pos := p } =
      ((f.drop p).take 4, min 4 (f.length - p) / 4,
        { bytes := f, pos := p + min 4 (f.length - p) }) := by
  simp [fread]

theorem verify_size_buf (f : List Byte) (hlen : 18 ≤ f.length) (behind : Nat → Byte) :
    load32 (peek ((f.drop 14).take 4) behind) 0 = declared_size f := by
  unfold declared_size
  have e : ∀ k, k < 4 → peek ((f.drop 14).take 4) behind (0 + k) = file_mem f (14 + k) := by
    intro k hk
    rw [Nat.zero_add, peek_take_drop f 14 4 k behind hk (by omega)]
    rfl
  have h0 := e 0 (by omega)
  have h1 := e 1 (by omega)
  have h2 := e 2 (by omega)
  have h3 := e 3 (by omega)
  simp only [Nat.zero_add, Nat.add_zero] at h0 h1 h2 h3
  simp only [load32, Nat.zero_add, h0, h1, h2, h3]

theorem verify_info_buf (env : Env) (f : List Byte) (hlen : 14 + declared_size f ≤ f.length) :
    peek ((f.drop 14).take (declared_size f)) env.junk = info_mem env f := by
  funext k
  unfold info_mem
  by_cases hk : k < declared_size f
  · rw [if_pos hk, peek_take_drop f 14 _ k env.junk hk hlen]
    rfl
  · rw [if_neg hk, peek_take_drop_behind f 14 _ k env.junk (by omega)]

/-- Common prefix of the paths behind the magic check. -/
theorem verify_magic_ok_unfold (env : Env) (h : bmp_file_handle_t) (f : List Byte)
    (hfp : h.file_ptr = some { bytes := f, pos := 0 }) (hlen : 14 ≤ f.length)
    (hmagic : load16 (file_mem f) 0 = BMP_MAGIC_ID) :
    bmp_verify env h =
      (let r2 := fread 4 1 { bytes := f, pos := 14 }
       let info_size := load32 (peek r2.1 (fun k => (obj_bytes32 h.info.info_size).getD k 0)) 0
       let h2 : bmp_file_handle_t :=
         { h with file_ptr := some r2.2.2, header := decoded_header h f,
                  info := { h.info with info_size := info_size } }
       if r2.2.1 ≠ 1 then (false, h2, [Msg.info_size_short])
       else if env.realloc_ok info_size = false then (false, h2, [Msg.realloc_failed])
       else
         let r3 := fread 1 info_size (fseek r2.2.2 (-4) 1)
         let h3 := { h2 with file_ptr := some r3.2.2 }
         if r3.2.1 < info_size then (false, h3, [Msg.info_short])
         else
           let buff := peek r3.1 env.junk
           let info : bmp_info_t :=
             { info_size := info_size
               img_width := load32 buff 4
               img_height := load32 buff 8
               planes := load16 buff 12
               bit_cnt := load16 buff 14
               compression := load32 buff 16
               img_size := load32 buff 20
               x_res := load32 buff 24
               y_res := load32 buff 28
               colors_num := load32 buff 32
               imp_colors_num := load32 buff 36 }
           let h4 := { h3 with info := info }
           ((check_format h4).1, h4, print_bmp_info h4 ++ (check_format h4).2)) := by
  have hm : min 14 f.length = 14 := by omega
  have e16 : load16 (peek ((f.drop 0).take 14) env.junk) 0 = load16 (file_mem f) 0 :=
    load16_congr _ _ _ (fun k hk => verify_header_buf env f hlen _ (by omega))
  have e2 : load32 (peek ((f.drop 0).take 14) env.junk) 2 = load32 (file_mem f) 2 :=
    load32_congr _ _ _ (fun k hk => verify_header_buf env f hlen _ (by omega))
  have e10 : load32 (peek ((f.drop 0).take 14) env.junk) 10 = load32 (file_mem f) 10 :=
    load32_congr _ _ _ (fun k hk => verify_header_buf env f hlen _ (by omega))
  simp only [bmp_verify, hfp, fread_one, BMP_HEADER_SIZE, BMP_HEADER_MAGIC_ID_OFF,
    BMP_HEADER_FILE_SIZE_OFF, BMP_HEADER_DATA_OFFSET_OFF, Nat.sub_zero, hm, Nat.zero_add,
    lt_irrefl, if_false, e16, e2, e10, hmagic, ne_eq, not_true_eq_false, decoded_header,
    BMP_INFO_IMG_WIDTH_OFF, BMP_INFO_IMG_HEIGHT_OFF, BMP_INFO_PLANES_OFF, BMP_INFO_BIT_CNT_OFF,
    BMP_INFO_COMPRESSION_OFF, BMP_INFO_IMG_SIZE_OFF, BMP_INFO_XRES_OFF, BMP_INFO_YRES_OFF,
    BMP_INFO_COLOR_NUM_OFF, BMP_INFO_IMP_COLOR_NUM_OFF]

theorem verify_size_short (env : Env) (h : bmp_file_handle_t) (f : List Byte)
    (hfp : h.file_ptr = some { bytes := f, pos := 0 }) (hlen : 14 ≤ f.length)
    (hmagic : load16 (file_mem f) 0 = BMP_MAGIC_ID) (hshort : f.length < 18) :
    (bmp_verify env h).1 = false ∧ (bmp_verify env h).2.2 = [Msg.info_size_short] := by
  rw [verify_magic_ok_unfold env h f hfp hlen hmagic]
  have hm : min 4 (f.length - 14) / 4 = 0 := by
    apply Nat.div_eq_of_lt
    omega
  simp [fread_u32, hm]

theorem verify_realloc_failed (env : Env) (h : bmp_file_handle_t) (f : List Byte)
    (hfp : h.file_ptr = some { bytes := f, pos := 0 }) (hlen : 18 ≤ f.length)
    (hmagic : load16 (file_mem f) 0 = BMP_MAGIC_ID)
    (hre : env.realloc_ok (declared_size f) = false) :
    (bmp_verify env h).1 = false ∧ (bmp_verify env h).2.2 = [Msg.realloc_failed] := by
  rw [verify_magic_ok_unfold env h f hfp (by omega) hmagic]
  have hm : min 4 (f.length - 14) = 4 := by omega
  simp [fread_u32, hm, verify_size_buf f hlen, hre]

theorem verify_info_short (env : Env) (h : bmp_file_handle_t) (f : List Byte)
    (hfp : h.file_ptr = some { bytes := f, pos := 0 }) (hlen : 18 ≤ f.length)
    (hmagic : load16 (file_mem f) 0 = BMP_MAGIC_ID)
    (hre : env.realloc_ok (declared_size f) = true)
    (hshort : f.length < 14 + declared_size f) :
    (bmp_verify env h).1 = false ∧ (bmp_verify env h).2.2 = [Msg.info_short] := by
  rw [verify_magic_ok_unfold env h f hfp (by omega) hmagic]
  have hm : min 4 (f.length - 14) = 4 := by omega
  have hb : fseek { bytes := f, pos := 18 } (-4) 1 = { bytes := f, pos := 14 } :=
    fseek_back4 f 18 (by omega)
  have hlt : min (declared_size f) (f.length - 14) < declared_size f := by omega
  simp [fread_u32, hm, verify_size_buf f hlen, hre, hb, fread_one, hlt]

theorem verify_decoded (env : Env) (h : bmp_file_handle_t) (f : List Byte)
    (hfp : h.file_ptr = some { bytes := f, pos := 0 }) (hlen : 18 ≤ f.length)
    (hmagic : load16 (file_mem f) 0 = BMP_MAGIC_ID)
    (hre : env.realloc_ok (declared_size f) = true)
    (hfull : 14 + declared_size f ≤ f.length) :
    bmp_verify env h =
      ((check_format (decoded_handle env h f)).1, decoded_handle env h f,
        print_bmp_info (decoded_handle env h f) ++ (check_format (decoded_handle env h f)).2) := by
  rw [verify_magic_ok_unfold env h f hfp (by omega) hmagic]
  have hm : min 4 (f.length - 14) = 4 := by omega
  have hb : fseek { bytes := f, pos := 18 } (-4) 1 = { bytes := f, pos := 14 } :=
    fseek_back4 f 18 (by omega)
  have hge : min (declared_size f) (f.length - 14) = declared_size f := by omega
  simp [fread_u32, hm, verify_size_buf f hlen, hre, hb, fread_one, hge,
    verify_info_buf env f hfull, decoded_handle, decoded_info]

/-! ## Little-endian fields of the file -/

theorem take_drop_two (f : List Byte) (a : Nat) (h : a + 2 ≤ f.length) :
    (f.drop a).take 2 = [file_mem f a, file_mem f (a + 1)] := by
  apply List.ext_getElem
  · simp; omega
  · intro i h1 h2
    simp at h2
    have h3 : a + i < f.length := by omega
    have h4 : a < f.length := by omega
    interval_cases i <;> simp [file_mem, List.getD_eq_getElem?_getD, List.getElem?_eq_getElem, h3, h4]

theorem take_drop_four (f : List Byte) (a : Nat) (h : a + 4 ≤ f.length) :
    (f.drop a).take 4 = [file_mem f a, file_mem f (a + 1), file_mem f (a + 2), file_mem f (a + 3)] := by
  apply List.ext_getElem
  · simp; omega
  · intro i h1 h2
    simp at h2
    have h3 : a + i < f.length := by omega
    have h4 : a < f.length := by omega
    interval_cases i <;> simp [file_mem, List.getD_eq_getElem?_getD, List.getElem?_eq_getElem, h3, h4]

theorem file_field_two (f : List Byte) (a : Nat) (h : a + 2 ≤ f.length) :
    file_field f a (a + 1) = load16 (file_mem f) a := by
  have e : a + 1 + 1 - a = 2 := by omega
  simp [file_field, e, take_drop_two f a h, load16, Nat.ofDigits]

theorem file_field_four (f : List Byte) (a : Nat) (h : a + 4 ≤ f.length) :
    file_field f a (a + 3) = load32 (file_mem f) a := by
  have e : a + 3 + 1 - a = 4 := by omega
  simp [file_field, e, take_drop_four f a h, load32, Nat.ofDigits]
  ring

theorem magic_iff (f : List Byte) :
    load16 (file_mem f) 0 = BMP_MAGIC_ID ↔ f.getD 0 0 = 0x42 ∧ f.getD 1 0 = 0x4D := by
  have h0 := (f.getD 0 0).isLt
  have h1 := (f.getD 1 0).isLt
  simp only [load16, file_mem, BMP_MAGIC_ID, Nat.zero_add, Fin.ext_iff]
  have e1 : ((0x42 : Byte) : Nat) = 66 := rfl
  have e2 : ((0x4D : Byte) : Nat) = 77 := rfl
  rw [e1, e2]
  omega

/-! ## `bmp_verify` as a whole -/

/-- Every way through `bmp_verify` on a stream at the start of a file. -/
theorem verify_cases (env : Env) (h : bmp_file_handle_t) (f : List Byte)
    (hfp : h.file_ptr = some { bytes := f, pos := 0 }) :
    (f.length < 14 ∧ bmp_verify env h =
      (false, { h with file_ptr := some { bytes := f, pos := f.length } }, [Msg.header_short])) ∨
    (14 ≤ f.length ∧ load16 (file_mem f) 0 ≠ BMP_MAGIC_ID ∧ bmp_verify env h =
      (false, { h with file_ptr := some { bytes := f, pos := 14 }, header := decoded_header h f },
        [Msg.not_a_bmp])) ∨
    (14 ≤ f.length ∧ f.length < 18 ∧ load16 (file_mem f) 0 = BMP_MAGIC_ID ∧
      (bmp_verify env h).1 = false ∧ (bmp_verify env h).2.2 = [Msg.info_size_short]) ∨
    (18 ≤ f.length ∧ load16 (file_mem f) 0 = BMP_MAGIC_ID ∧
      env.realloc_ok (declared_size f) = false ∧
      (bmp_verify env h).1 = false ∧ (bmp_verify env h).2.2 = [Msg.realloc_failed]) ∨
    (18 ≤ f.length ∧ load16 (file_mem f) 0 = BMP_MAGIC_ID ∧
      env.realloc_ok (declared_size f) = true ∧ f.length < 14 + declared_size f ∧
      (bmp_verify env h).1 = false ∧ (bmp_verify env h).2.2 = [Msg.info_short]) ∨
    (18 ≤ f.length ∧ load16 (file_mem f) 0 = BMP_MAGIC_ID ∧
      env.realloc_ok (declared_size f) = true ∧ 14 + declared_size f ≤ f.length ∧
      bmp_verify env h =
        ((check_format (decoded_handle env h f)).1, decoded_handle env h f,
          print_bmp_info (decoded_handle env h f) ++ (check_format (decoded_handle env h f)).2)) := by
  by_cases h14 : f.length < 14
  · exact Or.inl ⟨h14, verify_header_short env h f hfp h14⟩
  · have h14 : 14 ≤ f.length := by omega
    by_cases hmagic : load16 (file_mem f) 0 = BMP_MAGIC_ID
    · by_cases h18 : f.length < 18
      · exact Or.inr (Or.inr (Or.inl ⟨h14, h18, hmagic, verify_size_short env h f hfp h14 hmagic h18⟩))
      · have h18 : 18 ≤ f.length := by omega
        cases hre : env.realloc_ok (declared_size f) with
        | false =>
          exact Or.inr (Or.inr (Or.inr (Or.inl
            ⟨h18, hmagic, rfl, verify_realloc_failed env h f hfp h18 hmagic hre⟩)))
        | true =>
          by_cases hs : f.length < 14 + declared_size f
          · exact Or.inr (Or.inr (Or.inr (Or.inr (Or.inl
              ⟨h18, hmagic, rfl, hs, verify_info_short env h f hfp h18 hmagic hre hs⟩))))
          · exact Or.inr (Or.inr (Or.inr (Or.inr (Or.inr
              ⟨h18, hmagic, rfl, by omega, verify_decoded env h f hfp h18 hmagic hre (by omega)⟩))))
    · exact Or.inr (Or.inl ⟨h14, hmagic, verify_bad_magic env h f hfp h14 hmagic⟩)

/-- A successful `bmp_verify` went through the decode path. -/
theorem verify_true (env : Env) (h : bmp_file_handle_t) (f : List Byte)
    (hfp : h.file_ptr = some { bytes := f, pos := 0 }) (hok : (bmp_verify env h).1 = true) :
    18 ≤ f.length ∧ load16 (file_mem f) 0 = BMP_MAGIC_ID ∧
      env.realloc_ok (declared_size f) = true ∧ 14 + declared_size f ≤ f.length ∧
      (check_format (decoded_handle env h f)).1 = true ∧
      (bmp_verify env h).2.1 = decoded_handle env h f := by
  rcases verify_cases env h f hfp with c | c | c | c | c | c
  · rw [c.2] at hok; cases hok
  · rw [c.2.2] at hok; cases hok
  · rw [c.2.2.2.1] at hok; cases hok
  · rw [c.2.2.2.1] at hok; cases hok
  · rw [c.2.2.2.2.1] at hok; cases hok
  · obtain ⟨a, b, c1, d, e⟩ := c
    rw [e] at hok
    exact ⟨a, b, c1, d, hok, by rw [e]⟩

theorem info_mem_file (env : Env) (f : List Byte) (k : Nat) (hk : k < declared_size f) :
    info_mem env f k = file_mem f (14 + k) := by
  simp [info_mem, hk]

theorem info_load16 (env : Env) (f : List Byte) (off : Nat) (hs : off + 2 ≤ declared_size f)
    (hlen : 14 + declared_size f ≤ f.length) :
    load16 (info_mem env f) off = file_field f (14 + off) (14 + off + 1) := by
  rw [file_field_two f (14 + off) (by omega)]
  apply load16_congr
  intro k hk
  rw [info_mem_file env f _ (by omega)]

theorem info_load32 (env : Env) (f : List Byte) (off : Nat) (hs : off + 4 ≤ declared_size f)
    (hlen : 14 + declared_size f ≤ f.length) :
    load32 (info_mem env f) off = file_field f (14 + off) (14 + off + 3) := by
  rw [file_field_four f (14 + off) (by omega)]
  apply load32_congr
  intro k hk
  rw [info_mem_file env f _ (by omega)]

/-! ## `main` up to `bmp_verify` -/

theorem verify_no_loading (env : Env) (h : bmp_file_handle_t) (f : List Byte)
    (hfp : h.file_ptr = some { bytes := f, pos := 0 }) :
    Msg.loading ∉ (bmp_verify env h).2.2 := by
  rcases verify_cases env h f hfp with c | c | c | c | c | c
  · rw [c.2]; simp
  · rw [c.2.2]; simp
  · rw [c.2.2.2.2]; simp
  · rw [c.2.2.2.2]; simp
  · rw [c.2.2.2.2.2]; simp
  · rw [c.2.2.2.2]
    simp only [print_bmp_info, check_format]
    split <;> simp

/-- A run of `main` with well-formed arguments on a file that opens: what
is left is the chain of `bmp_verify`, `bmp_load_img`, `bmp_binarization`
and `bmp_write_img`. -/
theorem main_opened (env : Env) (prog name t : String) (f : List Byte)
    (hopen : env.fopen_rb name = some f)
    (hnum : is_number t.toList = true) (hthr : atoi_u32 t.toList ≤ 255) :
    main env [prog, name, t] =
      (let v := bmp_verify env (opened_handle name f)
       let m2 := Msg.opening name :: Msg.verifying :: v.2.2
       if v.1 = false then (5, none, m2)
       else
         let l := bmp_load_img env v.2.1
         let m3 := m2 ++ Msg.loading :: l.2.2
         if l.1 = false then (6, none, m3)
         else
           let w := bmp_write_img env (bmp_binarization l.2.1 (atoi_u32 t.toList % 256))
           let m4 := m3 ++ Msg.binarizing (atoi_u32 t.toList % 256) :: Msg.saving :: w.2.2.2
           if w.1 = false then (7, w.2.2.1.map OFILE.bytes, m4)
           else (0, w.2.2.1.map OFILE.bytes, m4 ++ [Msg.done])) := by
  have hthr2 : ¬ atoi_u32 t.toList > 255 := by omega
  have e1 : [prog, name, t].getD 1 default = name := rfl
  have e2 : [prog, name, t].getD 2 default = t := rfl
  have e3 : ¬ [prog, name, t].length ≠ 3 := by simp
  have e4 : bmp_open env (fresh_handle name) = (true, opened_handle name f, []) := by
    simp [bmp_open, fresh_handle, hopen, opened_handle]
  have e5 : (fresh_handle name).filename = name := rfl
  simp only [main, e1, e2, e3, if_false, hnum, hthr2, e4, e5, Bool.true_eq_false,
    List.cons_append, List.nil_append]

theorem main_verify_failed (env : Env) (prog name t : String) (f : List Byte)
    (hopen : env.fopen_rb name = some f)
    (hnum : is_number t.toList = true) (hthr : atoi_u32 t.toList ≤ 255)
    (hv : (bmp_verify env (opened_handle name f)).1 = false) :
    main env [prog, name, t] =
      (5, none, Msg.opening name :: Msg.verifying :: (bmp_verify env (opened_handle name f)).2.2) := by
  rw [main_opened env prog name t f hopen hnum hthr]
  simp only [hv, if_true]

theorem decoded_check_format_false (env : Env) (h : bmp_file_handle_t) (f : List Byte)
    (hfull : 14 + declared_size f ≤ f.length)
    (hfmt : (16 ≤ declared_size f ∧ file_field f 28 29 ≠ 24) ∨
      (14 ≤ declared_size f ∧ file_field f 26 27 ≠ 1) ∨
      (20 ≤ declared_size f ∧ file_field f 30 33 ≠ 0)) :
    check_format (decoded_handle env h f) = (false, [Msg.not_supported]) := by
  have hc : (decoded_handle env h f).info.bit_cnt ≠ 24 ∨ (decoded_handle env h f).info.planes ≠ 1 ∨
      (decoded_handle env h f).info.compression ≠ 0 := by
    simp only [decoded_handle, decoded_info]
    rcases hfmt with ⟨hs, hne⟩ | ⟨hs, hne⟩ | ⟨hs, hne⟩
    · left
      rw [info_load16 env f 14 (by omega) hfull]
      exact hne
    · right; left
      rw [info_load16 env f 12 (by omega) hfull]
      exact hne
    · right; right
      rw [info_load32 env f 16 (by omega) hfull]
      exact hne
  simp only [check_format, hc, if_true]

/-! ## The loops with their `int` counter -/

theorem int_counter_zero : int_counter 0 = 0 := by
  simp [int_counter]

theorem int_counter_small (j : Nat) (h : j < 2147483648) : int_counter j = (j : Int) := by
  simp [int_counter, h]

theorem int_counter_incr (j : Nat) (h : j < 2147483648) :
    int_incr (int_counter j) = int_counter (j + 1) := by
  unfold int_incr int_counter
  rw [if_pos h]
  split <;> omega

/-- The counter passes the test of the loop exactly while it has not made
all its passes. -/
theorem int_counter_test (n j : Nat) (hn : n < 4294967296) (hj : j ≤ loop_passes n) :
    int_to_size_t (int_counter j) < n ↔ j < loop_passes n := by
  unfold int_to_size_t int_counter loop_passes at *
  split <;> omega

theorem load_loop_eq_passes (n : Nat) (hn : n < 4294967296) :
    ∀ (k fuel j : Nat) (fp : FILE) (data : List bmp_pixel_t),
      j + k = loop_passes n → k ≤ fuel →
      load_loop n fuel (int_counter j) fp data = load_passes k j fp data := by
  intro k
  induction k with
  | zero =>
    intro fuel j fp data hjk _
    have ht := int_counter_test n j hn (by omega)
    cases fuel with
    | zero => rfl
    | succ fuel =>
      simp only [load_loop, load_passes]
      rw [if_neg (by rw [ht]; omega)]
  | succ k ih =>
    intro fuel j fp data hjk hfuel
    have ht := int_counter_test n j hn (by omega)
    have hj : j < 2147483648 := by
      unfold loop_passes at hjk
      omega
    cases fuel with
    | zero => omega
    | succ fuel =>
      simp only [load_loop, load_passes]
      rw [if_pos (by rw [ht]; omega), int_counter_incr j hj,
        ih fuel (j + 1) _ _ (by omega) (by omega), int_counter_small j hj]
      rfl

/-- The loop of `bmp_load_img` does not use up its fuel: any larger supply
gives the same result. -/
theorem load_loop_fuel (n fuel : Nat) (hn : n < 4294967296) (hfuel : n ≤ fuel)
    (fp : FILE) (data : List bmp_pixel_t) :
    load_loop n fuel 0 fp data = load_loop n n 0 fp data := by
  have hp : loop_passes n ≤ n := by
    unfold loop_passes
    omega
  rw [← int_counter_zero,
    load_loop_eq_passes n hn (loop_passes n) fuel 0 fp data (by omega) (by omega),
    load_loop_eq_passes n hn (loop_passes n) n 0 fp data (by omega) (by omega)]

theorem write_loop_eq_passes (behind : Nat → bmp_pixel_t) (n : Nat) (hn : n < 4294967296) :
    ∀ (k fuel j : Nat) (data : List bmp_pixel_t) (out : OFILE),
      j + k = loop_passes n → k ≤ fuel →
      write_loop behind n fuel (int_counter j) data out = write_passes behind k j data out := by
  intro k
  induction k with
  | zero =>
    intro fuel j data out hjk _
    have ht := int_counter_test n j hn (by omega)
    cases fuel with
    | zero => rfl
    | succ fuel =>
      simp only [write_loop, write_passes]
      rw [if_neg (by rw [ht]; omega)]
  | succ k ih =>
    intro fuel j data out hjk hfuel
    have ht := int_counter_test n j hn (by omega)
    have hj : j < 2147483648 := by
      unfold loop_passes at hjk
      omega
    cases fuel with
    | zero => omega
    | succ fuel =>
      simp only [write_loop, write_passes]
      rw [if_pos (by rw [ht]; omega), int_counter_incr j hj,
        ih fuel (j + 1) _ _ (by omega) (by omega), int_counter_small j hj]
      rfl

/-- The loop of `bmp_write_img` does not use up its fuel. -/
theorem write_loop_fuel (behind : Nat → bmp_pixel_t) (n fuel : Nat) (hn : n < 4294967296)
    (hfuel : n ≤ fuel) (data : List bmp_pixel_t) (out : OFILE) :
    write_loop behind n fuel 0 data out = write_loop behind n n 0 data out := by
  have hp : loop_passes n ≤ n := by
    unfold loop_passes
    omega
  rw [← int_counter_zero,
    write_loop_eq_passes behind n hn (loop_passes n) fuel 0 data out (by omega) (by omega),
    write_loop_eq_passes behind n hn (loop_passes n) n 0 data out (by omega) (by omega)]

theorem binarization_loop_eq_passes (t n : Nat) (hn : n < 4294967296) :
    ∀ (k fuel j : Nat) (data : List bmp_pixel_t),
      j + k = loop_passes n → k ≤ fuel →
      binarization_loop t n fuel (int_counter j) data = binarization_passes t k j data := by
  intro k
  induction k with
  | zero =>
    intro fuel j data hjk _
    have ht := int_counter_test n j hn (by omega)
    cases fuel with
    | zero => rfl
    | succ fuel =>
      simp only [binarization_loop, binarization_passes]
      rw [if_neg (by rw [ht]; omega)]
  | succ k ih =>
    intro fuel j data hjk hfuel
    have ht := int_counter_test n j hn (by omega)
    have hj : j < 2147483648 := by
      unfold loop_passes at hjk
      omega
    cases fuel with
    | zero => omega
    | succ fuel =>
      simp only [binarization_loop, binarization_passes]
      rw [if_pos (by rw [ht]; omega), int_counter_incr j hj,
        ih fuel (j + 1) _ (by omega) (by omega), ih fuel (j + 1) _ (by omega) (by omega),
        int_counter_small j hj]
      rfl

/-- The loop of `bmp_binarization` does not use up its fuel. -/
theorem binarization_loop_fuel (t n fuel : Nat) (hn : n < 4294967296) (hfuel : n ≤ fuel)
    (data : List bmp_pixel_t) :
    binarization_loop t n fuel 0 data = binarization_loop t n n 0 data := by
  have hp : loop_passes n ≤ n := by
    unfold loop_passes
    omega
  rw [← int_counter_zero,
    binarization_loop_eq_passes t n hn (loop_passes n) fuel 0 data (by omega) (by omega),
    binarization_loop_eq_passes t n hn (loop_passes n) n 0 data (by omega) (by omega)]

theorem num_of_pixels_lt (h : bmp_file_handle_t) : num_of_pixels h < 4294967296 := by
  unfold num_of_pixels
  exact Nat.mod_lt _ (by norm_num)

theorem loop_passes_le (n : Nat) : loop_passes n ≤ n := by
  unfold loop_passes
  omega

theorem load_loop_start (h : bmp_file_handle_t) (fp : FILE) (data : List bmp_pixel_t) :
    load_loop (num_of_pixels h) (num_of_pixels h) 0 fp data =
      load_passes (loop_passes (num_of_pixels h)) 0 fp data := by
  rw [← int_counter_zero]
  exact load_loop_eq_passes _ (num_of_pixels_lt h) _ _ 0 fp data (by omega) (loop_passes_le _)

theorem write_loop_start (behind : Nat → bmp_pixel_t) (h : bmp_file_handle_t)
    (data : List bmp_pixel_t) (out : OFILE) :
    write_loop behind (num_of_pixels h) (num_of_pixels h) 0 data out =
      write_passes behind (loop_passes (num_of_pixels h)) 0 data out := by
  rw [← int_counter_zero]
  exact write_loop_eq_passes behind _ (num_of_pixels_lt h) _ _ 0 data out (by omega)
    (loop_passes_le _)

theorem binarization_loop_start (t : Nat) (h : bmp_file_handle_t) (data : List bmp_pixel_t) :
    binarization_loop t (num_of_pixels h) (num_of_pixels h) 0 data =
      binarization_passes t (loop_passes (num_of_pixels h)) 0 data := by
  rw [← int_counter_zero]
  exact binarization_loop_eq_passes t _ (num_of_pixels_lt h) _ _ 0 data (by omega)
    (loop_passes_le _)

/-! ## The loop of `bmp_load_img` -/

theorem fread_pixel (f : List Byte) (q : Nat) (hq : q + 3 ≤ f.length) :
    fread 1 3 { bytes := f, pos := q } =
      ([f.getD q 0, f.getD (q + 1) 0, f.getD (q + 2) 0], 3, { bytes := f, pos := q + 3 }) := by
  rw [fread_one]
  have hm : min 3 (f.length - q) = 3 := by omega
  rw [hm]
  congr 1
  apply List.ext_getElem
  · simp; omega
  · intro i h1 h2
    simp at h2
    have h3 : q + i < f.length := by omega
    have h4 : q < f.length := by omega
    interval_cases i <;> simp [List.getElem?_eq_getElem, h3, h4]

theorem fread_pixel_short (f : List Byte) (q : Nat) (hq : f.length < q + 3) :
    (fread 1 3 { bytes := f, pos := q }).2.1 ≠ 3 := by
  rw [fread_one]
  simp only
  omega

theorem load_passes_short (f : List Byte) :
    ∀ (k i q : Nat) (data : List bmp_pixel_t), 0 < k → f.length < q + 3 * k →
      (load_passes k i { bytes := f, pos := q } data).1 = false := by
  intro k
  induction k with
  | zero => intro i q data hk h; omega
  | succ k ih =>
    intro i q data _ h
    by_cases hq : q + 3 ≤ f.length
    · simp only [load_passes, fread_pixel f q hq, ne_eq, not_true_eq_false, if_false]
      exact ih _ _ _ (by omega) (by omega)
    · have hs := fread_pixel_short f q (by omega)
      simp only [load_passes]
      rw [if_pos hs]

theorem load_passes_full (f : List Byte) :
    ∀ (k i q : Nat) (data : List bmp_pixel_t), q + 3 * k ≤ f.length →
      (load_passes k i { bytes := f, pos := q } data).1 = true ∧
      (load_passes k i { bytes := f, pos := q } data).2.1 = { bytes := f, pos := q + 3 * k } ∧
      (load_passes k i { bytes := f, pos := q } data).2.2.length = data.length ∧
      ∀ j, (load_passes k i { bytes := f, pos := q } data).2.2[j]? =
        if i ≤ j ∧ j < i + k ∧ j < data.length then some (file_pixel f (q + 3 * (j - i)))
        else data[j]? := by
  intro k
  induction k with
  | zero =>
    intro i q data _
    refine ⟨rfl, rfl, rfl, fun j => ?_⟩
    have hn : ¬ (i ≤ j ∧ j < i + 0 ∧ j < data.length) := by omega
    rw [if_neg hn]
    rfl
  | succ k ih =>
    intro i q data h
    simp only [load_passes, fread_pixel f q (show q + 3 ≤ f.length by omega), ne_eq,
      not_true_eq_false, if_false]
    obtain ⟨h1, h2, h3, h4⟩ := ih (i + 1) (q + 3)
      (data.set i { blue := [f.getD q 0, f.getD (q + 1) 0, f.getD (q + 2) 0].getD 0 0,
                    green := [f.getD q 0, f.getD (q + 1) 0, f.getD (q + 2) 0].getD 1 0,
                    red := [f.getD q 0, f.getD (q + 1) 0, f.getD (q + 2) 0].getD 2 0 }) (by omega)
    refine ⟨h1, ?_, ?_, fun j => ?_⟩
    · rw [h2]
      congr 1
      omega
    · rw [h3, List.length_set]
    · rw [h4 j, List.length_set, List.getElem?_set]
      by_cases hji : i = j
      · subst hji
        have hn : ¬ (i + 1 ≤ i ∧ i < i + 1 + k ∧ i < data.length) := by omega
        rw [if_neg hn, if_pos rfl]
        by_cases hl : i < data.length
        · have hp : i ≤ i ∧ i < i + (k + 1) ∧ i < data.length := ⟨le_refl _, by omega, hl⟩
          rw [if_pos hl, if_pos hp, Nat.sub_self]
          rfl
        · have hp : ¬ (i ≤ i ∧ i < i + (k + 1) ∧ i < data.length) := by omega
          rw [if_neg hl, if_neg hp]
          exact (List.getElem?_eq_none (by omega)).symm
      · rw [if_neg hji]
        by_cases hc : i + 1 ≤ j ∧ j < i + 1 + k ∧ j < data.length
        · have hp : i ≤ j ∧ j < i + (k + 1) ∧ j < data.length := by omega
          rw [if_pos hc, if_pos hp]
          congr 2
          omega
        · have hp : ¬ (i ≤ j ∧ j < i + (k + 1) ∧ j < data.length) := by omega
          rw [if_neg hc, if_neg hp]

theorem load_img_unfold (env : Env) (h : bmp_file_handle_t) (f : List Byte) (p : Nat)
    (hfp : h.file_ptr = some { bytes := f, pos := p }) :
    bmp_load_img env h =
      (let r := load_passes (loop_passes (num_of_pixels h)) 0
          { bytes := f, pos := h.header.data_offset }
          ((List.range (num_of_pixels h)).map env.uninit_pixel)
       if r.1 then (true, { h with file_ptr := some r.2.1, data := r.2.2 }, [])
       else (false, { h with file_ptr := some r.2.1, data := r.2.2 }, [Msg.pixel_short])) := by
  simp only [bmp_load_img, hfp, fseek_set, load_loop_start]

theorem loop_passes_small (n : Nat) (h : n ≤ 2147483648) : loop_passes n = n := by
  simp only [loop_passes]
  omega

theorem loop_passes_pos (n : Nat) : 0 < loop_passes n ↔ 0 < n := by
  unfold loop_passes
  omega

/-- When `bmp_load_img` fails: some pass of its loop finds fewer than three
bytes. -/
theorem load_img_fails_iff (env : Env) (h : bmp_file_handle_t) (f : List Byte) (p : Nat)
    (hfp : h.file_ptr = some { bytes := f, pos := p }) :
    (bmp_load_img env h).1 = false ↔
      (0 < num_of_pixels h ∧
        f.length < h.header.data_offset + 3 * loop_passes (num_of_pixels h)) := by
  rw [load_img_unfold env h f p hfp, ← loop_passes_pos]
  by_cases hc : 0 < loop_passes (num_of_pixels h) ∧
      f.length < h.header.data_offset + 3 * loop_passes (num_of_pixels h)
  · have hl := load_passes_short f (loop_passes (num_of_pixels h)) 0 h.header.data_offset
      ((List.range (num_of_pixels h)).map env.uninit_pixel) hc.1 hc.2
    simp [hl, hc]
  · by_cases hn : loop_passes (num_of_pixels h) = 0
    · simp [hn, load_passes]
    · have hl := (load_passes_full f (loop_passes (num_of_pixels h)) 0 h.header.data_offset
        ((List.range (num_of_pixels h)).map env.uninit_pixel) (by omega)).1
      simp [hl, hc]

/-! ## `bmp_write_img` and the whole run -/

theorem fseek_start (f : List Byte) (p : Nat) :
    fseek { bytes := f, pos := p } 0 0 = { bytes := f, pos := 0 } := by
  simp [fseek]

theorem header_buffer_eq (f : List Byte) (behind : Nat → Byte) (off : Nat) (h : off ≤ f.length) :
    (List.range off).map (peek (f.take off) behind) = f.take off := by
  apply List.ext_getElem
  · simp; omega
  · intro i h1 h2
    simp at h1
    have h3 : i < (f.take off).length := by simp; omega
    have h4 : i < f.length := by omega
    simp [peek, h3, h1, h4, List.getElem?_eq_getElem]

theorem load_passes_bytes :
    ∀ (k i : Nat) (fp : FILE) (data : List bmp_pixel_t),
      (load_passes k i fp data).2.1.bytes = fp.bytes := by
  intro k
  induction k with
  | zero => intro i fp data; rfl
  | succ k ih =>
    intro i fp data
    simp only [load_passes]
    split
    · rfl
    · rw [ih]
      rfl

theorem file_eq_of_bytes (fp : FILE) (f : List Byte) (hb : fp.bytes = f) :
    fp = { bytes := f, pos := fp.pos } := by
  cases fp
  simp only at hb
  simp only [hb]

theorem load_img_frame (env : Env) (h : bmp_file_handle_t) (f : List Byte) (p : Nat)
    (hfp : h.file_ptr = some { bytes := f, pos := p }) :
    (bmp_load_img env h).2.1.header = h.header ∧
    (bmp_load_img env h).2.1.info = h.info ∧
    (bmp_load_img env h).2.1.filename = h.filename ∧
    ∃ q, (bmp_load_img env h).2.1.file_ptr = some { bytes := f, pos := q } := by
  rw [load_img_unfold env h f p hfp]
  have hb := load_passes_bytes (loop_passes (num_of_pixels h)) 0
    { bytes := f, pos := h.header.data_offset }
    ((List.range (num_of_pixels h)).map env.uninit_pixel)
  simp only at hb
  have he := file_eq_of_bytes _ f hb
  simp only
  cases hr : (load_passes (loop_passes (num_of_pixels h)) 0
    { bytes := f, pos := h.header.data_offset }
    ((List.range (num_of_pixels h)).map env.uninit_pixel)).1
  · simp only [Bool.false_eq_true, if_false]
    exact ⟨trivial, trivial, trivial, _, congrArg some he⟩
  · simp only [if_true]
    exact ⟨trivial, trivial, trivial, _, congrArg some he⟩

/-- A run of `main` that ends with status 0 went through every stage. -/
theorem main_zero (env : Env) (prog name t : String) (f : List Byte)
    (hopen : env.fopen_rb name = some f)
    (hzero : (main env [prog, name, t]).1 = 0) :
    (bmp_verify env (opened_handle name f)).1 = true ∧
    (bmp_load_img env (bmp_verify env (opened_handle name f)).2.1).1 = true ∧
    (bmp_write_img env (bmp_binarization
      (bmp_load_img env (bmp_verify env (opened_handle name f)).2.1).2.1
      (atoi_u32 t.toList % 256))).1 = true ∧
    (main env [prog, name, t]).2.1 = (bmp_write_img env (bmp_binarization
      (bmp_load_img env (bmp_verify env (opened_handle name f)).2.1).2.1
      (atoi_u32 t.toList % 256))).2.2.1.map OFILE.bytes := by
  have e1 : [prog, name, t].getD 2 default = t := rfl
  have e3 : ¬ [prog, name, t].length ≠ 3 := by simp
  cases hnum : is_number t.toList with
  | false =>
    simp only [main, e1, e3, if_false, hnum, if_true] at hzero
    cases hzero
  | true =>
    by_cases hthr : atoi_u32 t.toList > 255
    · simp only [main, e1, e3, if_false, hnum, Bool.true_eq_false, hthr, if_true] at hzero
      cases hzero
    · rw [main_opened env prog name t f hopen hnum (by omega)] at hzero ⊢
      simp only at hzero ⊢
      cases hv : (bmp_verify env (opened_handle name f)).1 with
      | false => simp only [hv, if_true] at hzero; cases hzero
      | true =>
        simp only [hv, Bool.true_eq_false, if_false] at hzero ⊢
        cases hl : (bmp_load_img env (bmp_verify env (opened_handle name f)).2.1).1 with
        | false => simp only [hl, if_true] at hzero; cases hzero
        | true =>
          simp only [hl, Bool.true_eq_false, if_false] at hzero ⊢
          cases hw : (bmp_write_img env (bmp_binarization
              (bmp_load_img env (bmp_verify env (opened_handle name f)).2.1).2.1
              (atoi_u32 t.toList % 256))).1 with
          | false => simp only [hw, if_true] at hzero; cases hzero
          | true =>
            simp only [hw, Bool.true_eq_false, if_false]
            exact ⟨trivial, trivial, trivial, trivial⟩

/-! ## The claims -/

/-- C1: on every file that `bmp_verify` accepts and whose declared
info-header size is at least 40, each decoded field is the little-endian
unsigned value of its fixed byte range: magic 0-1, file size 2-5, data
offset 10-13, info size 14-17, width 18-21, height 22-25, planes 26-27, bit
count 28-29, compression 30-33, image size 34-37, x resolution 38-41,
y resolution 42-45, colour count 46-49, important colours 50-53.  Such a
file has at least 54 bytes, so every range lies inside it; the reserved
field is not decoded. -/
theorem bmp_verify_decodes_little_endian (env : Env) (h : bmp_file_handle_t) (f : List Byte)
    (hfp : h.file_ptr = some { bytes := f, pos := 0 })
    (hok : (bmp_verify env h).1 = true)
    (hsize : 40 ≤ (bmp_verify env h).2.1.info.info_size) :
    54 ≤ f.length ∧
    (bmp_verify env h).2.1.header =
      { magic_id := file_field f 0 1
        file_size := file_field f 2 5
        reserved := h.header.reserved
        data_offset := file_field f 10 13 } ∧
    (bmp_verify env h).2.1.info =
      { info_size := file_field f 14 17
        img_width := file_field f 18 21
        img_height := file_field f 22 25
        planes := file_field f 26 27
        bit_cnt := file_field f 28 29
        compression := file_field f 30 33
        img_size := file_field f 34 37
        x_res := file_field f 38 41
        y_res := file_field f 42 45
        colors_num := file_field f 46 49
        imp_colors_num := file_field f 50 53 } := by
  obtain ⟨h18, _, _, hfull, _, hres⟩ := verify_true env h f hfp hok
  rw [hres] at hsize ⊢
  have hs : 40 ≤ declared_size f := hsize
  refine ⟨by omega, ?_, ?_⟩
  · simp only [decoded_handle, decoded_header]
    rw [file_field_two f 0 (by omega), file_field_four f 2 (by omega),
      file_field_four f 10 (by omega)]
  · simp only [decoded_handle, decoded_info]
    rw [info_load32 env f 4 (by omega) hfull, info_load32 env f 8 (by omega) hfull,
      info_load16 env f 12 (by omega) hfull, info_load16 env f 14 (by omega) hfull,
      info_load32 env f 16 (by omega) hfull, info_load32 env f 20 (by omega) hfull,
      info_load32 env f 24 (by omega) hfull, info_load32 env f 28 (by omega) hfull,
      info_load32 env f 32 (by omega) hfull, info_load32 env f 36 (by omega) hfull,
      file_field_four f 14 (by omega)]
    rfl

/-- C1 at the sample image: it is accepted, declares an info header of 40
bytes, and its decoded width is the value of bytes 18-21, which is 2. -/
theorem bmp_verify_decodes_little_endian_witness :
    (bmp_verify (sample_env sample_bmp) (opened_handle "in.bmp" sample_bmp)).1 = true ∧
    40 ≤ (bmp_verify (sample_env sample_bmp) (opened_handle "in.bmp" sample_bmp)).2.1.info.info_size ∧
    (bmp_verify (sample_env sample_bmp) (opened_handle "in.bmp" sample_bmp)).2.1.info.img_width
      = file_field sample_bmp 18 21 ∧
    file_field sample_bmp 18 21 = 2 :=
  ⟨by decide, by decide,
    congrArg bmp_info_t.img_width
      (bmp_verify_decodes_little_endian (sample_env sample_bmp) (opened_handle "in.bmp" sample_bmp)
        sample_bmp rfl (by decide) (by decide)).2.2,
    by decide⟩

/-- C2: on every file of at least 14 bytes `bmp_verify` gets past the magic
check (it does not report that the file is not a BMP) if and only if byte 0
is 0x42 and byte 1 is 0x4D.  When they differ it returns false with that
report alone, the cursor rests at offset 14, so no byte of the info header
was read, and the info structure and pixel array are as before. -/
theorem bmp_verify_magic_check (env : Env) (h : bmp_file_handle_t) (f : List Byte)
    (hfp : h.file_ptr = some { bytes := f, pos := 0 }) (hlen : 14 ≤ f.length) :
    (Msg.not_a_bmp ∉ (bmp_verify env h).2.2 ↔ (f.getD 0 0 = 0x42 ∧ f.getD 1 0 = 0x4D)) ∧
    (¬ (f.getD 0 0 = 0x42 ∧ f.getD 1 0 = 0x4D) →
      (bmp_verify env h).1 = false ∧
      (bmp_verify env h).2.2 = [Msg.not_a_bmp] ∧
      (bmp_verify env h).2.1.file_ptr = some { bytes := f, pos := 14 } ∧
      (bmp_verify env h).2.1.info = h.info ∧
      (bmp_verify env h).2.1.data = h.data) := by
  rw [← magic_iff]
  rcases verify_cases env h f hfp with c | c | c | c | c | c
  · omega
  · obtain ⟨_, hm, e⟩ := c
    rw [e]
    simp [hm]
  · obtain ⟨_, _, hm, _, e⟩ := c
    rw [e]
    simp [hm]
  · obtain ⟨_, hm, _, _, e⟩ := c
    rw [e]
    simp [hm]
  · obtain ⟨_, hm, _, _, _, e⟩ := c
    rw [e]
    simp [hm]
  · obtain ⟨_, hm, _, _, e⟩ := c
    rw [e]
    simp only [hm, not_true_eq_false, false_implies, and_true, iff_true]
    simp only [print_bmp_info, check_format]
    split <;> simp

/-- C2 at the sample image, which has 66 bytes and starts with `BM`. -/
theorem bmp_verify_magic_check_witness :
    14 ≤ sample_bmp.length ∧
    (Msg.not_a_bmp ∉ (bmp_verify (sample_env sample_bmp) (opened_handle "in.bmp" sample_bmp)).2.2 ↔
      (sample_bmp.getD 0 0 = 0x42 ∧ sample_bmp.getD 1 0 = 0x4D)) :=
  ⟨by decide,
    (bmp_verify_magic_check (sample_env sample_bmp) (opened_handle "in.bmp" sample_bmp)
      sample_bmp rfl (by decide)).1⟩

/-- C3: `bmp_verify` returns false on every file that is too short: fewer
than 14 bytes, or a valid magic and fewer than 18 bytes, or fewer than
14 + s bytes where s is the value of bytes 14-17. -/
theorem bmp_verify_rejects_short_file (env : Env) (h : bmp_file_handle_t) (f : List Byte)
    (hfp : h.file_ptr = some { bytes := f, pos := 0 })
    (hshort : f.length < 14 ∨
      (f.getD 0 0 = 0x42 ∧ f.getD 1 0 = 0x4D ∧ f.length < 18) ∨
      f.length < 14 + file_field f 14 17) :
    (bmp_verify env h).1 = false := by
  rcases verify_cases env h f hfp with c | c | c | c | c | c
  · rw [c.2]
  · rw [c.2.2]
  · exact c.2.2.2.1
  · exact c.2.2.2.1
  · exact c.2.2.2.2.1
  · obtain ⟨h18, hm, _, hfull, _⟩ := c
    exfalso
    rw [file_field_four f 14 (by omega)] at hshort
    change (_ ∨ _ ∨ f.length < 14 + declared_size f) at hshort
    omega

/-- C3 at the sample image cut down to its first ten bytes. -/
theorem bmp_verify_rejects_short_file_witness :
    sample_bmp_cut.length < 14 ∧
    (bmp_verify (sample_env sample_bmp_cut) (opened_handle "in.bmp" sample_bmp_cut)).1 = false :=
  ⟨by decide,
    bmp_verify_rejects_short_file (sample_env sample_bmp_cut) (opened_handle "in.bmp" sample_bmp_cut)
      sample_bmp_cut rfl (Or.inl (by decide))⟩

/-- C4: `check_format` returns true if and only if the bit count is 24, the
plane count is 1 and the compression is 0, and two handles that agree on
these three fields get the same answer (and the same report), whatever
their other fields are. -/
theorem check_format_iff :
    (∀ h : bmp_file_handle_t, (check_format h).1 = true ↔
      (h.info.bit_cnt = 24 ∧ h.info.planes = 1 ∧ h.info.compression = 0)) ∧
    (∀ h1 h2 : bmp_file_handle_t, h1.info.bit_cnt = h2.info.bit_cnt →
      h1.info.planes = h2.info.planes → h1.info.compression = h2.info.compression →
      check_format h1 = check_format h2) := by
  constructor
  · intro h
    unfold check_format
    split <;> rename_i hc <;> simp <;> omega
  · intro h1 h2 e1 e2 e3
    simp only [check_format, e1, e2, e3]

/-- C4 at the decoded sample image and the handle of an unopened file with
the same three fields. -/
theorem check_format_iff_witness :
    check_format (decoded_handle (sample_env sample_bmp) (fresh_handle "in.bmp") sample_bmp) =
      check_format { fresh_handle "other.bmp" with
        info := { (fresh_handle "other.bmp").info with bit_cnt := 24, planes := 1 } } :=
  check_format_iff.2 _ _ (by decide) (by decide) (by decide)

/-- The unsupported-format path for a field that lies inside the declared
info header.  Take a file with valid magic whose info header can be read
completely (at least 18 bytes and at least 14 + s bytes, s the declared
size) and which holds, within those s bytes, a bit count other than 24, a
plane count other than 1 or a compression other than 0.  Then `bmp_verify`
returns false; when the info buffer could be allocated it does so with the
unsupported-format report after the decoded file info, with the info
structure decoded, the cursor at the end of the info header and the pixel
array untouched.  A run of `main` on such a file returns 5 without
announcing or starting `bmp_load_img` and opens no output file. -/
theorem unsupported_format_within_header (env : Env) (prog name t : String) (f : List Byte)
    (hopen : env.fopen_rb name = some f)
    (hnum : is_number t.toList = true) (hthr : atoi_u32 t.toList ≤ 255)
    (hmagic : f.getD 0 0 = 0x42 ∧ f.getD 1 0 = 0x4D)
    (hlen : 18 ≤ f.length) (hfull : 14 + file_field f 14 17 ≤ f.length)
    (hfmt : (16 ≤ file_field f 14 17 ∧ file_field f 28 29 ≠ 24) ∨
      (14 ≤ file_field f 14 17 ∧ file_field f 26 27 ≠ 1) ∨
      (20 ≤ file_field f 14 17 ∧ file_field f 30 33 ≠ 0)) :
    (∀ h : bmp_file_handle_t, h.file_ptr = some { bytes := f, pos := 0 } →
      (bmp_verify env h).1 = false ∧
      (env.realloc_ok (file_field f 14 17) = true →
        (bmp_verify env h).2.2 = print_bmp_info (bmp_verify env h).2.1 ++ [Msg.not_supported] ∧
        (bmp_verify env h).2.1.info.info_size = file_field f 14 17 ∧
        (bmp_verify env h).2.1.file_ptr = some { bytes := f, pos := 14 + file_field f 14 17 } ∧
        (bmp_verify env h).2.1.data = h.data)) ∧
    (main env [prog, name, t]).1 = 5 ∧
    (main env [prog, name, t]).2.1 = none ∧
    Msg.loading ∉ (main env [prog, name, t]).2.2 := by
  have hsz : file_field f 14 17 = declared_size f := file_field_four f 14 (by omega)
  rw [hsz] at hfull hfmt ⊢
  have hm := (magic_iff f).2 hmagic
  have hverify : ∀ h : bmp_file_handle_t, h.file_ptr = some { bytes := f, pos := 0 } →
      (bmp_verify env h).1 = false ∧
      (env.realloc_ok (declared_size f) = true →
        bmp_verify env h = (false, decoded_handle env h f,
          print_bmp_info (decoded_handle env h f) ++ [Msg.not_supported])) := by
    intro h hfp
    cases hre : env.realloc_ok (declared_size f) with
    | false =>
      exact ⟨(verify_realloc_failed env h f hfp hlen hm hre).1, fun hc => by cases hc⟩
    | true =>
      have e := verify_decoded env h f hfp hlen hm hre hfull
      rw [decoded_check_format_false env h f hfull hfmt] at e
      exact ⟨by rw [e], fun _ => e⟩
  refine ⟨?_, ?_⟩
  · intro h hfp
    refine ⟨(hverify h hfp).1, fun hre => ?_⟩
    rw [(hverify h hfp).2 hre]
    exact ⟨rfl, rfl, rfl, rfl⟩
  · rw [main_verify_failed env prog name t f hopen hnum hthr (hverify _ rfl).1]
    refine ⟨rfl, rfl, ?_⟩
    have hl := verify_no_loading env (opened_handle name f) f rfl
    simp [hl]

/-- What a successful `bmp_load_img` leaves in the pixel array: the array has
`num_of_pixels` elements; each index that the loop passes holds blue, green
and red from the file bytes `off + 3 i`, `off + 3 i + 1`, `off + 3 i + 2`,
all of which exist; each index that the loop does not pass still holds what
the allocation contained. -/
theorem load_img_pixels (env : Env) (h : bmp_file_handle_t) (f : List Byte) (p : Nat)
    (hfp : h.file_ptr = some { bytes := f, pos := p })
    (hok : (bmp_load_img env h).1 = true) :
    (bmp_load_img env h).2.1.data.length = num_of_pixels h ∧
    (∀ i, i < loop_passes (num_of_pixels h) →
      h.header.data_offset + 3 * i + 2 < f.length ∧
      (bmp_load_img env h).2.1.data[i]? =
        some { blue := f.getD (h.header.data_offset + 3 * i) 0
               green := f.getD (h.header.data_offset + 3 * i + 1) 0
               red := f.getD (h.header.data_offset + 3 * i + 2) 0 }) ∧
    (∀ i, loop_passes (num_of_pixels h) ≤ i → i < num_of_pixels h →
      (bmp_load_img env h).2.1.data[i]? = some (env.uninit_pixel i)) := by
  have hnf : ¬ (0 < num_of_pixels h ∧
      f.length < h.header.data_offset + 3 * loop_passes (num_of_pixels h)) := by
    intro hc
    rw [(load_img_fails_iff env h f p hfp).2 hc] at hok
    cases hok
  have hpos := loop_passes_pos (num_of_pixels h)
  have hle := loop_passes_le (num_of_pixels h)
  by_cases hzero : num_of_pixels h = 0
  · have hp0 : loop_passes (num_of_pixels h) = 0 := by omega
    rw [load_img_unfold env h f p hfp]
    simp only [hp0, load_passes, if_true]
    refine ⟨by simp, fun i hi => by omega, fun i _ hin => by omega⟩
  obtain ⟨h1, _, h3, h4⟩ := load_passes_full f (loop_passes (num_of_pixels h)) 0
    h.header.data_offset ((List.range (num_of_pixels h)).map env.uninit_pixel) (by omega)
  rw [load_img_unfold env h f p hfp]
  simp only [h1, if_true]
  refine ⟨by rw [h3]; simp, fun i hi => ⟨by omega, ?_⟩, fun i hi hin => ?_⟩
  · rw [h4 i]
    have hp : 0 ≤ i ∧ i < 0 + loop_passes (num_of_pixels h) ∧
        i < ((List.range (num_of_pixels h)).map env.uninit_pixel).length := by
      simp
      omega
    rw [if_pos hp]
    rfl
  · rw [h4 i]
    have hp : ¬ (0 ≤ i ∧ i < 0 + loop_passes (num_of_pixels h) ∧
        i < ((List.range (num_of_pixels h)).map env.uninit_pixel).length) := by
      omega
    rw [if_neg hp, List.getElem?_map, List.getElem?_range hin]
    rfl

/-- C8, the code at a header that declares 65536 x 65536 pixels: the file is
accepted with both dimensions decoded as 65536, whose product is 2^32, yet
`num_of_pixels` is 0 because the product is formed in 32 bits.  The loops
visit no index: `bmp_load_img` succeeds with an empty array on a file that
holds no pixel at all, and `main` ends with status 0 having written the 54
header bytes only. -/
theorem num_of_pixels_wraps_at_65536_squared :
    (bmp_verify (sample_env sample_bmp_huge) (opened_handle "in.bmp" sample_bmp_huge)).1 = true ∧
    (bmp_verify (sample_env sample_bmp_huge)
      (opened_handle "in.bmp" sample_bmp_huge)).2.1.info.img_width = 65536 ∧
    (bmp_verify (sample_env sample_bmp_huge)
      (opened_handle "in.bmp" sample_bmp_huge)).2.1.info.img_height = 65536 ∧
    num_of_pixels (bmp_verify (sample_env sample_bmp_huge)
      (opened_handle "in.bmp" sample_bmp_huge)).2.1 = 0 ∧
    num_of_pixels (bmp_verify (sample_env sample_bmp_huge)
      (opened_handle "in.bmp" sample_bmp_huge)).2.1 ≠ 65536 * 65536 ∧
    (bmp_load_img (sample_env sample_bmp_huge) (bmp_verify (sample_env sample_bmp_huge)
      (opened_handle "in.bmp" sample_bmp_huge)).2.1).1 = true ∧
    (bmp_load_img (sample_env sample_bmp_huge) (bmp_verify (sample_env sample_bmp_huge)
      (opened_handle "in.bmp" sample_bmp_huge)).2.1).2.1.data = [] ∧
    (main (sample_env sample_bmp_huge) ["img_bin", "in.bmp", "100"]).1 = 0 ∧
    (main (sample_env sample_bmp_huge) ["img_bin", "in.bmp", "100"]).2.1 = some sample_bmp_huge := by
  decide

/-- C9 fails for a negative height: the top-down sample header (width 1,
height bytes FE FF FF FF, that is -2 as a signed 32-bit value) is accepted,
its height is decoded as 4294967294, the pixel count is 4294967294 and not
0, and `bmp_load_img` fails at the first pixel instead of succeeding with an
empty array. -/
theorem negative_height_is_not_empty :
    (bmp_verify (sample_env sample_bmp_topdown) (opened_handle "in.bmp" sample_bmp_topdown)).1
      = true ∧
    file_field sample_bmp_topdown 22 25 = 2 ^ 32 - 2 ∧
    (bmp_verify (sample_env sample_bmp_topdown)
      (opened_handle "in.bmp" sample_bmp_topdown)).2.1.info.img_height = 4294967294 ∧
    num_of_pixels (bmp_verify (sample_env sample_bmp_topdown)
      (opened_handle "in.bmp" sample_bmp_topdown)).2.1 = 4294967294 ∧
    (bmp_load_img (sample_env sample_bmp_topdown) (bmp_verify (sample_env sample_bmp_topdown)
      (opened_handle "in.bmp" sample_bmp_topdown)).2.1).1 = false := by
  decide

/-- C9 as amended: on every file that `bmp_verify` accepts and whose decoded
width or height is zero, the pixel count is 0 and `bmp_load_img` succeeds,
silently, with an empty pixel array, whatever bytes follow the headers. -/
theorem zero_dimension_loads_empty (env : Env) (h : bmp_file_handle_t) (f : List Byte)
    (hfp : h.file_ptr = some { bytes := f, pos := 0 })
    (hok : (bmp_verify env h).1 = true)
    (hzero : (bmp_verify env h).2.1.info.img_width = 0 ∨
      (bmp_verify env h).2.1.info.img_height = 0) :
    num_of_pixels (bmp_verify env h).2.1 = 0 ∧
    (bmp_load_img env (bmp_verify env h).2.1).1 = true ∧
    (bmp_load_img env (bmp_verify env h).2.1).2.1.data = [] ∧
    (bmp_load_img env (bmp_verify env h).2.1).2.2 = [] := by
  obtain ⟨_, _, _, _, _, hres⟩ := verify_true env h f hfp hok
  have hfp2 : (bmp_verify env h).2.1.file_ptr = some { bytes := f, pos := 14 + declared_size f } := by
    rw [hres]
    rfl
  have hn : num_of_pixels (bmp_verify env h).2.1 = 0 := by
    unfold num_of_pixels
    rcases hzero with hz | hz <;> simp [hz]
  rw [load_img_unfold env _ f _ hfp2]
  simp [hn, load_passes]

/-- C9 as amended, at the sample image of width 0 followed by four stray
bytes. -/
theorem zero_dimension_loads_empty_witness :
    (bmp_verify (sample_env sample_bmp_empty) (opened_handle "in.bmp" sample_bmp_empty)).1
      = true ∧
    (bmp_verify (sample_env sample_bmp_empty)
      (opened_handle "in.bmp" sample_bmp_empty)).2.1.info.img_width = 0 ∧
    (bmp_load_img (sample_env sample_bmp_empty) (bmp_verify (sample_env sample_bmp_empty)
      (opened_handle "in.bmp" sample_bmp_empty)).2.1).1 = true ∧
    (bmp_load_img (sample_env sample_bmp_empty) (bmp_verify (sample_env sample_bmp_empty)
      (opened_handle "in.bmp" sample_bmp_empty)).2.1).2.1.data = [] :=
  ⟨by decide, by decide,
    (zero_dimension_loads_empty (sample_env sample_bmp_empty)
      (opened_handle "in.bmp" sample_bmp_empty) sample_bmp_empty rfl (by decide)
      (Or.inl (by decide))).2.1,
    (zero_dimension_loads_empty (sample_env sample_bmp_empty)
      (opened_handle "in.bmp" sample_bmp_empty) sample_bmp_empty rfl (by decide)
      (Or.inl (by decide))).2.2.1⟩

theorem grey_eq_decimal (r g b : Nat) (hr : r ≤ 255) (hg : g ≤ 255) (hb : b ≤ 255) :
    (16 * (2507355 * r) + 16 * (4924113 * g) + 15300821 * b) / 2 ^ 27
      = (2989 * r + 5870 * g + 1140 * b) / 10000 := by
  norm_num
  omega

theorem channel_le (c : Byte) : c.val ≤ 255 := by
  have := c.isLt
  omega

theorem grey_le_254 (p : bmp_pixel_t) : conv_rgb2grey p ≤ 254 := by
  have hr := channel_le p.red
  have hg := channel_le p.green
  have hb := channel_le p.blue
  have hq : (2989 * p.red.val + 5870 * p.green.val + 1140 * p.blue.val) / 10000 ≤ 254 := by
    omega
  unfold conv_rgb2grey
  rw [grey_eq_decimal _ _ _ hr hg hb, Nat.mod_eq_of_lt (by omega)]
  exact hq

theorem grey_black : conv_rgb2grey { red := 0, green := 0, blue := 0 } = 0 := by
  decide

theorem grey_white : conv_rgb2grey { red := 255, green := 255, blue := 255 } = 254 := by
  decide

theorem binarized_idem (t : Nat) (p : bmp_pixel_t) :
    binarized t (binarized t p) = binarized t p := by
  have hle := grey_le_254 p
  unfold binarized
  by_cases hc : conv_rgb2grey p < t
  · have h0 : conv_rgb2grey { red := 0, green := 0, blue := 0 } < t := by
      rw [grey_black]
      omega
    simp only [hc, if_true, h0]
  · have h1 : ¬ conv_rgb2grey { red := 255, green := 255, blue := 255 } < t := by
      rw [grey_white]
      omega
    simp only [hc, if_false, h1]

theorem binarization_step (t i : Nat) (data : List bmp_pixel_t) (j : Nat) :
    (data.set i (binarized t (data.getD i { red := 0, green := 0, blue := 0 })))[j]? =
      if i = j then data[j]?.map (binarized t) else data[j]? := by
  rw [List.getElem?_set]
  by_cases hij : i = j
  · subst hij
    simp only [if_true]
    by_cases hl : i < data.length
    · simp [hl, List.getElem?_eq_getElem]
    · simp [hl, List.getElem?_eq_none (Nat.le_of_not_lt hl)]
  · simp only [hij, if_false]

theorem binarization_passes_succ (t k i : Nat) (data : List bmp_pixel_t) :
    binarization_passes t (k + 1) i data =
      binarization_passes t k (i + 1)
        (data.set i (binarized t (data.getD i { red := 0, green := 0, blue := 0 }))) := by
  simp only [binarization_passes, binarized]
  split <;> rfl

theorem binarization_passes_get (t : Nat) :
    ∀ (k i : Nat) (data : List bmp_pixel_t),
      (binarization_passes t k i data).length = data.length ∧
      ∀ j, (binarization_passes t k i data)[j]? =
        if i ≤ j ∧ j < i + k then data[j]?.map (binarized t) else data[j]? := by
  intro k
  induction k with
  | zero =>
    intro i data
    refine ⟨rfl, fun j => ?_⟩
    have hn : ¬ (i ≤ j ∧ j < i + 0) := by omega
    rw [if_neg hn]
    rfl
  | succ k ih =>
    intro i data
    rw [binarization_passes_succ]
    obtain ⟨h1, h2⟩ := ih (i + 1)
      (data.set i (binarized t (data.getD i { red := 0, green := 0, blue := 0 })))
    refine ⟨by rw [h1, List.length_set], fun j => ?_⟩
    rw [h2 j, binarization_step]
    by_cases hij : i = j
    · subst hij
      have hn : ¬ (i + 1 ≤ i ∧ i < i + 1 + k) := by omega
      have hp : i ≤ i ∧ i < i + (k + 1) := by omega
      rw [if_neg hn, if_pos rfl, if_pos hp]
    · by_cases hc : i + 1 ≤ j ∧ j < i + 1 + k
      · have hp : i ≤ j ∧ j < i + (k + 1) := by omega
        rw [if_pos hc, if_neg hij, if_pos hp]
      · have hp : ¬ (i ≤ j ∧ j < i + (k + 1)) := by omega
        rw [if_neg hc, if_neg hij, if_neg hp]

theorem binarization_data_eq (h : bmp_file_handle_t) (t : Nat) :
    (bmp_binarization h t).data =
      binarization_passes t (loop_passes (num_of_pixels h)) 0 h.data := by
  simp only [bmp_binarization, binarization_loop_start]

/-- The pixel array after `bmp_binarization`, index by index: the indices
that the loop passes are thresholded, the others are as before. -/
theorem binarization_data_get (h : bmp_file_handle_t) (t j : Nat) :
    (bmp_binarization h t).data[j]? =
      if j < loop_passes (num_of_pixels h) then h.data[j]?.map (binarized t)
      else h.data[j]? := by
  have hg := (binarization_passes_get t (loop_passes (num_of_pixels h)) 0 h.data).2 j
  simp only [Nat.zero_le, true_and, Nat.zero_add] at hg
  rw [binarization_data_eq]
  exact hg

theorem binarization_data_map (h : bmp_file_handle_t) (t : Nat)
    (hlen : h.data.length ≤ loop_passes (num_of_pixels h)) :
    (bmp_binarization h t).data = h.data.map (binarized t) := by
  apply List.ext_getElem?
  intro j
  rw [binarization_data_get, List.getElem?_map]
  by_cases hj : j < loop_passes (num_of_pixels h)
  · rw [if_pos hj]
  · rw [if_neg hj, List.getElem?_eq_none (by omega)]
    rfl

/-- The weights are binary32 numbers (24 significant bits) and lie within
half a unit in the last place of the decimal constants of the source. -/
theorem weights_are_nearest_binary32 :
    (R_WEIGHT = 10029420 / 2 ^ 25 ∧ (2 : ℚ) ^ 23 ≤ 10029420 ∧ (10029420 : ℚ) < 2 ^ 24 ∧
      |R_WEIGHT - 2989 / 10000| < 1 / 2 ^ 26) ∧
    (G_WEIGHT = 9848226 / 2 ^ 24 ∧ (2 : ℚ) ^ 23 ≤ 9848226 ∧ (9848226 : ℚ) < 2 ^ 24 ∧
      |G_WEIGHT - 5870 / 10000| < 1 / 2 ^ 25) ∧
    (B_WEIGHT = 15300821 / 2 ^ 27 ∧ (2 : ℚ) ^ 23 ≤ 15300821 ∧ (15300821 : ℚ) < 2 ^ 24 ∧
      |B_WEIGHT - 1140 / 10000| < 1 / 2 ^ 28) := by
  refine ⟨⟨?_, ?_, ?_, ?_⟩, ⟨?_, ?_, ?_, ?_⟩, ⟨?_, ?_, ?_, ?_⟩⟩ <;>
    (try simp only [R_WEIGHT, G_WEIGHT, B_WEIGHT, abs_lt]) <;> norm_num

/-- The grey value is the integer part of the weighted sum of the channels,
formed with the binary32 weights, reduced to eight bits. -/
theorem conv_rgb2grey_eq_floor (p : bmp_pixel_t) :
    (conv_rgb2grey p : ℤ) =
      ⌊R_WEIGHT * p.red.val + G_WEIGHT * p.green.val + B_WEIGHT * p.blue.val⌋ % 256 := by
  have e : R_WEIGHT * p.red.val + G_WEIGHT * p.green.val + B_WEIGHT * p.blue.val =
      ((16 * (2507355 * p.red.val) + 16 * (4924113 * p.green.val) + 15300821 * p.blue.val : ℕ) : ℚ)
        / ((2 ^ 27 : ℕ) : ℚ) := by
    simp only [R_WEIGHT, G_WEIGHT, B_WEIGHT]
    push_cast
    ring
  rw [e, Rat.floor_natCast_div_natCast]
  unfold conv_rgb2grey
  push_cast
  rfl

/-! ## The claims about the pixel transform -/

/-- C13: for every pixel, `conv_rgb2grey` returns the integer part of
0.2989 R + 0.5870 G + 0.1140 B formed with the exact decimal weights, that
is (2989 R + 5870 G + 1140 B) / 10000 rounded down, although the code
multiplies by the binary32 constants; the quotient it converts to `uint8_t`
is below 256, so nothing wraps. -/
theorem conv_rgb2grey_is_decimal_floor (p : bmp_pixel_t) :
    conv_rgb2grey p = (2989 * p.red.val + 5870 * p.green.val + 1140 * p.blue.val) / 10000 ∧
    (conv_rgb2grey p : ℤ) =
      ⌊(2989 / 10000 : ℚ) * p.red.val + (5870 / 10000 : ℚ) * p.green.val
        + (1140 / 10000 : ℚ) * p.blue.val⌋ ∧
    ⌊R_WEIGHT * p.red.val + G_WEIGHT * p.green.val + B_WEIGHT * p.blue.val⌋ < 256 ∧
    conv_rgb2grey p < 256 := by
  have hr := channel_le p.red
  have hg := channel_le p.green
  have hb := channel_le p.blue
  have hq : (2989 * p.red.val + 5870 * p.green.val + 1140 * p.blue.val) / 10000 ≤ 254 := by
    omega
  have h1 : conv_rgb2grey p
      = (2989 * p.red.val + 5870 * p.green.val + 1140 * p.blue.val) / 10000 := by
    unfold conv_rgb2grey
    rw [grey_eq_decimal _ _ _ hr hg hb, Nat.mod_eq_of_lt (by omega)]
  have e : (2989 / 10000 : ℚ) * p.red.val + (5870 / 10000 : ℚ) * p.green.val
      + (1140 / 10000 : ℚ) * p.blue.val =
      ((2989 * p.red.val + 5870 * p.green.val + 1140 * p.blue.val : ℕ) : ℚ)
        / ((10000 : ℕ) : ℚ) := by
    push_cast
    ring
  have e2 : R_WEIGHT * p.red.val + G_WEIGHT * p.green.val + B_WEIGHT * p.blue.val =
      ((16 * (2507355 * p.red.val) + 16 * (4924113 * p.green.val) + 15300821 * p.blue.val : ℕ) : ℚ)
        / ((2 ^ 27 : ℕ) : ℚ) := by
    simp only [R_WEIGHT, G_WEIGHT, B_WEIGHT]
    push_cast
    ring
  refine ⟨h1, ?_, ?_, by omega⟩
  · rw [e, Rat.floor_natCast_div_natCast, h1]
    rfl
  · rw [e2, Rat.floor_natCast_div_natCast]
    have hlt : (16 * (2507355 * p.red.val) + 16 * (4924113 * p.green.val)
        + 15300821 * p.blue.val) / 2 ^ 27 < 256 := by
      rw [grey_eq_decimal _ _ _ hr hg hb]
      omega
    exact_mod_cast hlt

/-- C19: `bmp_binarization` is idempotent: for every handle and every
threshold, a second pass with the same threshold changes nothing. -/
theorem bmp_binarization_idempotent (h : bmp_file_handle_t) (t : Nat) :
    bmp_binarization (bmp_binarization h t) t = bmp_binarization h t := by
  have hd : (bmp_binarization (bmp_binarization h t) t).data = (bmp_binarization h t).data := by
    apply List.ext_getElem?
    intro j
    have hn : num_of_pixels (bmp_binarization h t) = num_of_pixels h := rfl
    rw [binarization_data_get (bmp_binarization h t) t j, hn]
    by_cases hj : j < loop_passes (num_of_pixels h)
    · rw [if_pos hj, binarization_data_get h t j, if_pos hj, Option.map_map]
      congr 1
      funext p
      exact binarized_idem t p
    · rw [if_neg hj]
  show ({ bmp_binarization h t with data := (bmp_binarization (bmp_binarization h t) t).data }
    : bmp_file_handle_t) = bmp_binarization h t
  rw [hd]

/-! ## What load delivers and what write emits -/

/-- The pixel array after a successful `bmp_load_img`, as a list. -/
theorem load_img_data (env : Env) (h : bmp_file_handle_t) (f : List Byte) (p : Nat)
    (hfp : h.file_ptr = some { bytes := f, pos := p })
    (hsmall : num_of_pixels h ≤ 2147483648)
    (hok : (bmp_load_img env h).1 = true) :
    (num_of_pixels h = 0 ∨ h.header.data_offset + 3 * num_of_pixels h ≤ f.length) ∧
    (bmp_load_img env h).2.1.data =
      (List.range (num_of_pixels h)).map (fun i => file_pixel f (h.header.data_offset + 3 * i)) := by
  have hlp : loop_passes (num_of_pixels h) = num_of_pixels h := loop_passes_small _ hsmall
  have hnf : ¬ (0 < num_of_pixels h ∧ f.length < h.header.data_offset + 3 * num_of_pixels h) := by
    intro hc
    rw [← hlp] at hc
    rw [hlp] at hc
    have hc2 : 0 < num_of_pixels h ∧
        f.length < h.header.data_offset + 3 * loop_passes (num_of_pixels h) := by
      rw [hlp]
      exact hc
    rw [(load_img_fails_iff env h f p hfp).2 hc2] at hok
    cases hok
  refine ⟨by omega, ?_⟩
  by_cases hn : num_of_pixels h = 0
  · rw [load_img_unfold env h f p hfp, hlp]
    simp [hn, load_passes]
  · obtain ⟨h1, _, h3, h4⟩ := load_passes_full f (num_of_pixels h) 0 h.header.data_offset
      ((List.range (num_of_pixels h)).map env.uninit_pixel) (by omega)
    rw [load_img_unfold env h f p hfp, hlp]
    simp only [h1, if_true]
    apply List.ext_getElem?
    intro j
    rw [h4 j]
    by_cases hj : j < num_of_pixels h
    · have hp : 0 ≤ j ∧ j < 0 + num_of_pixels h ∧
          j < ((List.range (num_of_pixels h)).map env.uninit_pixel).length := by
        simp
        omega
      rw [if_pos hp, List.getElem?_map, List.getElem?_range hj]
      rfl
    · have hp : ¬ (0 ≤ j ∧ j < 0 + num_of_pixels h ∧
          j < ((List.range (num_of_pixels h)).map env.uninit_pixel).length) := by
        omega
      rw [if_neg hp, List.getElem?_eq_none (by simp; omega),
        List.getElem?_eq_none (by simp; omega)]

theorem fwrite_pixel (p : bmp_pixel_t) (out : OFILE)
    (h : (fwrite [p.blue, p.green, p.red] out).1 = 3) :
    (fwrite [p.blue, p.green, p.red] out).2.bytes = out.bytes ++ pixel_bytes p := by
  simp only [fwrite] at h ⊢
  have hroom : 3 ≤ out.room := by
    simp at h
    omega
  rw [List.take_of_length_le (by simp; omega)]
  rfl

theorem write_passes_exact (behind : Nat → bmp_pixel_t) :
    ∀ (k i : Nat) (data : List bmp_pixel_t) (out : OFILE),
      (write_passes behind k i data out).1 = true →
      (write_passes behind k i data out).2.bytes =
        out.bytes ++ ((List.range k).map (fun j => data.getD (i + j) (behind (i + j)))).flatMap
          pixel_bytes := by
  intro k
  induction k with
  | zero =>
    intro i data out _
    simp [write_passes]
  | succ k ih =>
    intro i data out hok
    simp only [write_passes] at hok ⊢
    by_cases hw : (fwrite [(data.getD i (behind i)).blue, (data.getD i (behind i)).green,
        (data.getD i (behind i)).red] out).1 ≠ 3
    · rw [if_pos hw] at hok
      cases hok
    · rw [if_neg hw] at hok ⊢
      rw [ih (i + 1) data _ hok, fwrite_pixel _ _ (by omega), List.range_succ_eq_map,
        List.map_cons, List.flatMap_cons, List.map_map, List.append_assoc]
      congr 3
      apply List.map_congr_left
      intro j _
      simp only [Function.comp, Nat.add_zero]
      have e : i + 1 + j = i + (j + 1) := by omega
      rw [e]

theorem range_getD_eq (data : List bmp_pixel_t) (behind : Nat → bmp_pixel_t) :
    (List.range data.length).map (fun j => data.getD (0 + j) (behind (0 + j))) = data := by
  apply List.ext_getElem?
  intro j
  rw [List.getElem?_map]
  by_cases hj : j < data.length
  · rw [List.getElem?_range hj]
    simp [List.getElem?_eq_getElem hj]
  · rw [List.getElem?_eq_none (by simp; omega), List.getElem?_eq_none (by omega)]
    rfl

/-- The output of a successful `bmp_write_img`: the first `data_offset` bytes
of the input, then three bytes for each pass of the loop. -/
theorem write_img_output (env : Env) (h : bmp_file_handle_t) (f : List Byte) (p : Nat)
    (hfp : h.file_ptr = some { bytes := f, pos := p })
    (hok : (bmp_write_img env h).1 = true) :
    h.header.data_offset ≤ f.length ∧
    ∃ out, (bmp_write_img env h).2.2.1 = some out ∧
      out.bytes = f.take h.header.data_offset ++
        ((List.range (loop_passes (num_of_pixels h))).map
          (fun j => h.data.getD (0 + j) (env.uninit_pixel (0 + j)))).flatMap pixel_bytes := by
  simp only [bmp_write_img, hfp, fseek_start, fread_one, Nat.sub_zero, List.drop_zero,
    write_loop_start] at hok ⊢
  cases hwb : env.fopen_wb with
  | false => simp [hwb] at hok
  | true =>
    simp only [hwb, Bool.true_eq_false, if_false] at hok ⊢
    by_cases hc : (fwrite ((List.range h.header.data_offset).map
        (peek (f.take h.header.data_offset) env.junk)) { bytes := [], room := env.out_room }).1
          ≠ h.header.data_offset ∨
        min h.header.data_offset f.length ≠ (fwrite ((List.range h.header.data_offset).map
        (peek (f.take h.header.data_offset) env.junk)) { bytes := [], room := env.out_room }).1
    · rw [if_pos hc] at hok
      cases hok
    · rw [if_neg hc] at hok ⊢
      have hlen : h.header.data_offset ≤ f.length := by omega
      refine ⟨hlen, ?_⟩
      rw [header_buffer_eq f env.junk _ hlen] at hc hok ⊢
      have hw : (fwrite (f.take h.header.data_offset) { bytes := [], room := env.out_room }).2.bytes
          = f.take h.header.data_offset := by
        simp [fwrite] at hc ⊢
        omega
      cases hl : (write_passes env.uninit_pixel (loop_passes (num_of_pixels h)) 0 h.data
          (fwrite (f.take h.header.data_offset) { bytes := [], room := env.out_room }).2).1 with
      | false =>
        rw [hl] at hok
        simp at hok
      | true =>
        have he := write_passes_exact env.uninit_pixel (loop_passes (num_of_pixels h)) 0 h.data _ hl
        rw [hw] at he
        simp only [if_true]
        exact ⟨_, rfl, he⟩

/-! ## The stages of `main` -/

theorem verify_no_saving (env : Env) (h : bmp_file_handle_t) (f : List Byte)
    (hfp : h.file_ptr = some { bytes := f, pos := 0 }) :
    Msg.saving ∉ (bmp_verify env h).2.2 := by
  rcases verify_cases env h f hfp with c | c | c | c | c | c
  · rw [c.2]; simp
  · rw [c.2.2]; simp
  · rw [c.2.2.2.2]; simp
  · rw [c.2.2.2.2]; simp
  · rw [c.2.2.2.2.2]; simp
  · rw [c.2.2.2.2]
    simp only [print_bmp_info, check_format]
    split <;> simp

theorem load_no_saving (env : Env) (h : bmp_file_handle_t) :
    Msg.saving ∉ (bmp_load_img env h).2.2 := by
  unfold bmp_load_img
  split
  · simp
  · simp only
    split <;> simp

/-- A run of `main` never reaches `bmp_open` with ill-formed arguments. -/
theorem main_bad_args (env : Env) (prog name t : String)
    (hbad : is_number t.toList = false ∨ atoi_u32 t.toList > 255) :
    (main env [prog, name, t]).1 ≠ 0 ∧ (main env [prog, name, t]).2.1 = none ∧
      Msg.saving ∉ (main env [prog, name, t]).2.2 := by
  have e2 : [prog, name, t].getD 2 default = t := rfl
  have e3 : ¬ [prog, name, t].length ≠ 3 := by simp
  cases hnum : is_number t.toList with
  | false =>
    simp only [main, e2, e3, if_false, hnum, if_true]
    simp
  | true =>
    have hthr : atoi_u32 t.toList > 255 := by
      rcases hbad with hb | hb
      · rw [hnum] at hb
        cases hb
      · exact hb
    simp only [main, e2, e3, if_false, hnum, Bool.true_eq_false, hthr, if_true]
    simp

/-- A run of `main` with well-formed arguments on a file that does not
open. -/
theorem main_open_failed (env : Env) (prog name t : String)
    (hopen : env.fopen_rb name = none)
    (hnum : is_number t.toList = true) (hthr : atoi_u32 t.toList ≤ 255) :
    main env [prog, name, t] = (4, none, [Msg.opening name, Msg.cannot_open name]) := by
  have hthr2 : ¬ atoi_u32 t.toList > 255 := by omega
  have e1 : [prog, name, t].getD 1 default = name := rfl
  have e2 : [prog, name, t].getD 2 default = t := rfl
  have e3 : ¬ [prog, name, t].length ≠ 3 := by simp
  have e4 : bmp_open env (fresh_handle name) =
      (false, { fresh_handle name with file_ptr := none }, [Msg.cannot_open name]) := by
    simp [bmp_open, fresh_handle, hopen]
  have e5 : (fresh_handle name).filename = name := rfl
  simp only [main, e1, e2, e3, if_false, hnum, hthr2, e4, e5, Bool.true_eq_false, if_true]

theorem main_load_failed (env : Env) (prog name t : String) (f : List Byte)
    (hopen : env.fopen_rb name = some f)
    (hnum : is_number t.toList = true) (hthr : atoi_u32 t.toList ≤ 255)
    (hv : (bmp_verify env (opened_handle name f)).1 = true)
    (hl : (bmp_load_img env (bmp_verify env (opened_handle name f)).2.1).1 = false) :
    main env [prog, name, t] =
      (6, none, Msg.opening name :: Msg.verifying :: (bmp_verify env (opened_handle name f)).2.2
        ++ Msg.loading :: (bmp_load_img env (bmp_verify env (opened_handle name f)).2.1).2.2) := by
  rw [main_opened env prog name t f hopen hnum hthr]
  simp only [hv, Bool.true_eq_false, if_false, hl, if_true]

/-- A run of `main` with another number of arguments than two. -/
theorem main_usage (env : Env) (argv : List String) (h : argv.length ≠ 3) :
    main env argv = (1, none, [Msg.usage]) := by
  unfold main
  rw [if_pos h]

theorem list_of_length_three (argv : List String) (h : argv.length = 3) :
    ∃ prog name t, argv = [prog, name, t] := by
  match argv, h with
  | [a, b, c], _ => exact ⟨a, b, c, rfl⟩

/-! ## The claims about the run as a whole -/

theorem bad_args_of_not (t : String)
    (h : ¬ (is_number t.toList = true ∧ atoi_u32 t.toList ≤ 255)) :
    is_number t.toList = false ∨ atoi_u32 t.toList > 255 := by
  cases hn : is_number t.toList with
  | false => exact Or.inl rfl
  | true =>
    right
    rw [hn] at h
    simp only [true_and] at h
    omega

/-- C17: when `bmp_open`, `bmp_verify` or `bmp_load_img` fails, `main`
returns a non-zero status (4, 5 and 6 for well-formed arguments), never
announces or starts `bmp_write_img` and opens no output file; and `main`
returns 0 only with two arguments naming a file on which `bmp_open`,
`bmp_verify`, `bmp_load_img` and `bmp_write_img` all succeed. -/
theorem failed_stage_writes_nothing (env : Env) :
    (∀ prog name t : String, env.fopen_rb name = none →
      (main env [prog, name, t]).1 ≠ 0 ∧
      (is_number t.toList = true → atoi_u32 t.toList ≤ 255 → (main env [prog, name, t]).1 = 4) ∧
      (main env [prog, name, t]).2.1 = none ∧
      Msg.saving ∉ (main env [prog, name, t]).2.2) ∧
    (∀ (prog name t : String) (f : List Byte), env.fopen_rb name = some f →
      (bmp_verify env (opened_handle name f)).1 = false →
      (main env [prog, name, t]).1 ≠ 0 ∧
      (is_number t.toList = true → atoi_u32 t.toList ≤ 255 → (main env [prog, name, t]).1 = 5) ∧
      (main env [prog, name, t]).2.1 = none ∧
      Msg.saving ∉ (main env [prog, name, t]).2.2) ∧
    (∀ (prog name t : String) (f : List Byte), env.fopen_rb name = some f →
      (bmp_verify env (opened_handle name f)).1 = true →
      (bmp_load_img env (bmp_verify env (opened_handle name f)).2.1).1 = false →
      (main env [prog, name, t]).1 ≠ 0 ∧
      (is_number t.toList = true → atoi_u32 t.toList ≤ 255 → (main env [prog, name, t]).1 = 6) ∧
      (main env [prog, name, t]).2.1 = none ∧
      Msg.saving ∉ (main env [prog, name, t]).2.2) ∧
    (∀ argv : List String, (main env argv).1 = 0 →
      ∃ (prog name t : String) (f : List Byte), argv = [prog, name, t] ∧
        env.fopen_rb name = some f ∧
        (bmp_verify env (opened_handle name f)).1 = true ∧
        (bmp_load_img env (bmp_verify env (opened_handle name f)).2.1).1 = true ∧
        (bmp_write_img env (bmp_binarization
          (bmp_load_img env (bmp_verify env (opened_handle name f)).2.1).2.1
          (atoi_u32 t.toList % 256))).1 = true) := by
  refine ⟨?_, ?_, ?_, ?_⟩
  · intro prog name t hopen
    by_cases hargs : is_number t.toList = true ∧ atoi_u32 t.toList ≤ 255
    · rw [main_open_failed env prog name t hopen hargs.1 hargs.2]
      refine ⟨by simp, fun _ _ => rfl, rfl, by simp⟩
    · have hbad := bad_args_of_not t hargs
      obtain ⟨h1, h2, h3⟩ := main_bad_args env prog name t hbad
      refine ⟨h1, fun hn ht => ?_, h2, h3⟩
      exact absurd ⟨hn, ht⟩ hargs
  · intro prog name t f hopen hv
    by_cases hargs : is_number t.toList = true ∧ atoi_u32 t.toList ≤ 255
    · rw [main_verify_failed env prog name t f hopen hargs.1 hargs.2 hv]
      refine ⟨by simp, fun _ _ => rfl, rfl, ?_⟩
      have hs := verify_no_saving env (opened_handle name f) f rfl
      simp [hs]
    · have hbad := bad_args_of_not t hargs
      obtain ⟨h1, h2, h3⟩ := main_bad_args env prog name t hbad
      refine ⟨h1, fun hn ht => ?_, h2, h3⟩
      exact absurd ⟨hn, ht⟩ hargs
  · intro prog name t f hopen hv hl
    by_cases hargs : is_number t.toList = true ∧ atoi_u32 t.toList ≤ 255
    · rw [main_load_failed env prog name t f hopen hargs.1 hargs.2 hv hl]
      refine ⟨by simp, fun _ _ => rfl, rfl, ?_⟩
      have hs := verify_no_saving env (opened_handle name f) f rfl
      have hs2 := load_no_saving env (bmp_verify env (opened_handle name f)).2.1
      simp [hs, hs2]
    · have hbad := bad_args_of_not t hargs
      obtain ⟨h1, h2, h3⟩ := main_bad_args env prog name t hbad
      refine ⟨h1, fun hn ht => ?_, h2, h3⟩
      exact absurd ⟨hn, ht⟩ hargs
  · intro argv hzero
    by_cases hlen : argv.length ≠ 3
    · rw [main_usage env argv hlen] at hzero
      cases hzero
    · obtain ⟨prog, name, t, rfl⟩ := list_of_length_three argv (by omega)
      cases hopen : env.fopen_rb name with
      | none =>
        by_cases hargs : is_number t.toList = true ∧ atoi_u32 t.toList ≤ 255
        · rw [main_open_failed env prog name t hopen hargs.1 hargs.2] at hzero
          cases hzero
        · have hbad := bad_args_of_not t hargs
          exact absurd hzero (main_bad_args env prog name t hbad).1
      | some f =>
        obtain ⟨hv, hl, hw, _⟩ := main_zero env prog name t f hopen hzero
        exact ⟨prog, name, t, f, rfl, hopen, hv, hl, hw⟩

/-- C17 at three runs with threshold 100: no file to open, the sample image
with magic `BZ`, and the sample image without its last pixel.  Each ends
with a non-zero status and without an output file. -/
theorem failed_stage_writes_nothing_witness :
    ((main sample_env_no_file ["img_bin", "in.bmp", "100"]).1 = 4 ∧
      (main sample_env_no_file ["img_bin", "in.bmp", "100"]).2.1 = none) ∧
    ((bmp_verify (sample_env sample_bmp_bz) (opened_handle "in.bmp" sample_bmp_bz)).1 = false ∧
      (main (sample_env sample_bmp_bz) ["img_bin", "in.bmp", "100"]).1 = 5 ∧
      (main (sample_env sample_bmp_bz) ["img_bin", "in.bmp", "100"]).2.1 = none) ∧
    ((bmp_load_img (sample_env sample_bmp_truncated)
        (bmp_verify (sample_env sample_bmp_truncated)
          (opened_handle "in.bmp" sample_bmp_truncated)).2.1).1 = false ∧
      (main (sample_env sample_bmp_truncated) ["img_bin", "in.bmp", "100"]).1 = 6 ∧
      (main (sample_env sample_bmp_truncated) ["img_bin", "in.bmp", "100"]).2.1 = none) :=
  ⟨⟨((failed_stage_writes_nothing sample_env_no_file).1 "img_bin" "in.bmp" "100" rfl).2.1
      (by decide) (by decide),
    ((failed_stage_writes_nothing sample_env_no_file).1 "img_bin" "in.bmp" "100" rfl).2.2.1⟩,
   ⟨by decide,
    ((failed_stage_writes_nothing (sample_env sample_bmp_bz)).2.1 "img_bin" "in.bmp" "100"
      sample_bmp_bz rfl (by decide)).2.1 (by decide) (by decide),
    ((failed_stage_writes_nothing (sample_env sample_bmp_bz)).2.1 "img_bin" "in.bmp" "100"
      sample_bmp_bz rfl (by decide)).2.2.1⟩,
   ⟨by decide,
    ((failed_stage_writes_nothing (sample_env sample_bmp_truncated)).2.2.1 "img_bin" "in.bmp" "100"
      sample_bmp_truncated rfl (by decide) (by decide)).2.1 (by decide) (by decide),
    ((failed_stage_writes_nothing (sample_env sample_bmp_truncated)).2.2.1 "img_bin" "in.bmp" "100"
      sample_bmp_truncated rfl (by decide) (by decide)).2.2.1⟩⟩

/-- C18: `bmp_load_img`, `bmp_binarization` and `bmp_write_img` leave the
header, the info header and the file name of the handle as they are;
`bmp_binarization` also leaves the stream alone and keeps the length of the
pixel array, and `bmp_write_img` leaves the pixel array alone. -/
theorem stages_keep_the_headers (env : Env) (h : bmp_file_handle_t) (t : Nat) :
    ((bmp_load_img env h).2.1.header = h.header ∧
      (bmp_load_img env h).2.1.info = h.info ∧
      (bmp_load_img env h).2.1.filename = h.filename) ∧
    ((bmp_binarization h t).header = h.header ∧
      (bmp_binarization h t).info = h.info ∧
      (bmp_binarization h t).filename = h.filename ∧
      (bmp_binarization h t).file_ptr = h.file_ptr ∧
      (bmp_binarization h t).data.length = h.data.length) ∧
    ((bmp_write_img env h).2.1.header = h.header ∧
      (bmp_write_img env h).2.1.info = h.info ∧
      (bmp_write_img env h).2.1.filename = h.filename ∧
      (bmp_write_img env h).2.1.data = h.data) := by
  have hlen : (bmp_binarization h t).data.length = h.data.length := by
    rw [binarization_data_eq]
    exact (binarization_passes_get t (loop_passes (num_of_pixels h)) 0 h.data).1
  refine ⟨?_, ⟨rfl, rfl, rfl, rfl, hlen⟩, ?_⟩
  · cases hfp : h.file_ptr with
    | none => simp [bmp_load_img, hfp]
    | some fp =>
      obtain ⟨f, p⟩ := fp
      obtain ⟨h1, h2, h3, _⟩ := load_img_frame env h f p hfp
      exact ⟨h1, h2, h3⟩
  · cases hfp : h.file_ptr with
    | none => simp [bmp_write_img, hfp]
    | some fp =>
      simp only [bmp_write_img, hfp]
      split
      · exact ⟨rfl, rfl, rfl, rfl⟩
      · split
        · exact ⟨rfl, rfl, rfl, rfl⟩
        · split <;> exact ⟨rfl, rfl, rfl, rfl⟩

theorem binarized_zero (p : bmp_pixel_t) :
    binarized 0 p = { red := 255, green := 255, blue := 255 } := by
  unfold binarized
  rw [if_neg (Nat.not_lt_zero _)]

theorem binarization_zero_data (h : bmp_file_handle_t) (hlen : h.data.length = num_of_pixels h)
    (hsmall : num_of_pixels h ≤ 2147483648) :
    (bmp_binarization h 0).data =
      List.replicate h.data.length { red := 255, green := 255, blue := 255 } := by
  rw [binarization_data_map h 0 (by rw [loop_passes_small _ hsmall]; omega)]
  apply List.ext_getElem?
  intro j
  rw [List.getElem?_map, List.getElem?_replicate]
  by_cases hj : j < h.data.length
  · rw [if_pos hj, List.getElem?_eq_getElem hj, Option.map_some', binarized_zero]
  · rw [if_neg hj, List.getElem?_eq_none (by omega)]
    rfl

theorem white_bytes (n : Nat) :
    (List.replicate n ({ red := 255, green := 255, blue := 255 } : bmp_pixel_t)).flatMap pixel_bytes
      = List.replicate (3 * n) 255 := by
  induction n with
  | zero => rfl
  | succ n ih =>
    rw [List.replicate_succ, List.flatMap_cons, ih]
    have e : 3 * (n + 1) = 3 + 3 * n := by omega
    rw [e, ← List.append_replicate_replicate]
    rfl

/-- The handle that reaches `bmp_write_img` in a run of `main` that ends with
status 0 on a file of at most `2^31` pixels: its array has the pixel count of
the decoded header, its data offset is the value of bytes 10-13 and its
stream is still the input. -/
theorem main_zero_write_handle (env : Env) (prog name t : String) (f : List Byte)
    (hopen : env.fopen_rb name = some f)
    (hsmall : num_of_pixels (bmp_verify env (opened_handle name f)).2.1 ≤ 2147483648)
    (hzero : (main env [prog, name, t]).1 = 0) :
    (bmp_load_img env (bmp_verify env (opened_handle name f)).2.1).2.1.data.length =
      num_of_pixels (bmp_verify env (opened_handle name f)).2.1 ∧
    num_of_pixels (bmp_load_img env (bmp_verify env (opened_handle name f)).2.1).2.1 =
      num_of_pixels (bmp_verify env (opened_handle name f)).2.1 ∧
    (bmp_load_img env (bmp_verify env (opened_handle name f)).2.1).2.1.header.data_offset =
      file_field f 10 13 ∧
    ∃ q, (bmp_load_img env (bmp_verify env (opened_handle name f)).2.1).2.1.file_ptr =
      some { bytes := f, pos := q } := by
  obtain ⟨hv, hl, _, _⟩ := main_zero env prog name t f hopen hzero
  obtain ⟨h18, _, _, _, _, hres⟩ := verify_true env (opened_handle name f) f rfl hv
  have hfp2 : (bmp_verify env (opened_handle name f)).2.1.file_ptr
      = some { bytes := f, pos := 14 + declared_size f } := by
    rw [hres]
    rfl
  obtain ⟨hhdr, hinfo, _, q, hq⟩ := load_img_frame env _ f _ hfp2
  obtain ⟨_, hdata⟩ := load_img_data env _ f _ hfp2 hsmall hl
  refine ⟨?_, ?_, ?_, q, hq⟩
  · rw [hdata]
    simp
  · unfold num_of_pixels
    rw [hinfo]
  · rw [file_field_four f 10 (by omega), hhdr, hres]
    rfl

/-- A run of `main` with threshold 0 that ends with status 0 on a file of at
most `2^31` pixels writes the first `data_offset` bytes of the input followed
by three bytes 0xFF for each pixel. -/
theorem main_zero_threshold_output (env : Env) (prog name t : String) (f : List Byte)
    (hopen : env.fopen_rb name = some f)
    (ht : atoi_u32 t.toList = 0)
    (hsmall : num_of_pixels (bmp_verify env (opened_handle name f)).2.1 ≤ 2147483648)
    (hzero : (main env [prog, name, t]).1 = 0) :
    (main env [prog, name, t]).2.1 =
      some (f.take (file_field f 10 13) ++
        List.replicate (3 * num_of_pixels (bmp_verify env (opened_handle name f)).2.1) 255) := by
  obtain ⟨_, _, hw, hout⟩ := main_zero env prog name t f hopen hzero
  obtain ⟨hlen, hn, hoff, q, hq⟩ := main_zero_write_handle env prog name t f hopen hsmall hzero
  rw [ht] at hw hout
  have hq2 : (bmp_binarization (bmp_load_img env (bmp_verify env (opened_handle name f)).2.1).2.1
      (0 % 256)).file_ptr = some { bytes := f, pos := q } := hq
  obtain ⟨_, out, ho, hob⟩ := write_img_output env _ f q hq2 hw
  have hdata : (bmp_binarization (bmp_load_img env (bmp_verify env (opened_handle name f)).2.1).2.1
      (0 % 256)).data = List.replicate (num_of_pixels (bmp_verify env (opened_handle name f)).2.1)
        { red := 255, green := 255, blue := 255 } := by
    have e0 : (0 : Nat) % 256 = 0 := rfl
    rw [e0, binarization_zero_data _ (by rw [hlen, hn]) (by rw [hn]; exact hsmall), hlen]
  have hnb : num_of_pixels (bmp_binarization
      (bmp_load_img env (bmp_verify env (opened_handle name f)).2.1).2.1 (0 % 256))
      = num_of_pixels (bmp_verify env (opened_handle name f)).2.1 := hn
  have hoffb : (bmp_binarization (bmp_load_img env (bmp_verify env (opened_handle name f)).2.1).2.1
      (0 % 256)).header.data_offset = file_field f 10 13 := hoff
  rw [hnb, hoffb, hdata, loop_passes_small _ hsmall] at hob
  have hr := range_getD_eq (List.replicate (num_of_pixels (bmp_verify env (opened_handle name f)).2.1)
    ({ red := 255, green := 255, blue := 255 } : bmp_pixel_t)) env.uninit_pixel
  rw [List.length_replicate] at hr
  rw [hr, white_bytes] at hob
  rw [hout, ho, ← hob]
  rfl

/-! ## The output when the pixel count does not wrap -/

theorem num_of_pixels_no_wrap (h : bmp_file_handle_t)
    (hw : h.info.img_width * h.info.img_height < 2 ^ 32) :
    num_of_pixels h = h.info.img_width * h.info.img_height := by
  unfold num_of_pixels
  exact Nat.mod_eq_of_lt hw

theorem take_drop_three (f : List Byte) (a : Nat) (h : a + 3 ≤ f.length) :
    (f.drop a).take 3 = pixel_bytes (file_pixel f a) := by
  apply List.ext_getElem
  · simp [pixel_bytes]; omega
  · intro i h1 h2
    simp [pixel_bytes] at h2
    have h3 : a + i < f.length := by omega
    have h4 : a < f.length := by omega
    interval_cases i <;>
      simp [pixel_bytes, file_pixel, List.getElem?_eq_getElem, h3, h4]

theorem file_pixels_bytes (f : List Byte) (off : Nat) :
    ∀ n, off + 3 * n ≤ f.length →
      ((List.range n).map (fun i => file_pixel f (off + 3 * i))).flatMap pixel_bytes
        = (f.drop off).take (3 * n) := by
  intro n
  induction n with
  | zero => intro _; rfl
  | succ n ih =>
    intro hlen
    have e : 3 * (n + 1) = 3 * n + 3 := by omega
    rw [List.range_succ, List.map_append, List.flatMap_append, ih (by omega), e, List.take_add,
      List.drop_drop]
    congr 1
    simp only [List.map_cons, List.map_nil, List.flatMap_cons, List.flatMap_nil, List.append_nil]
    rw [take_drop_three f (off + 3 * n) (by omega)]

/-- The output of a successful `bmp_write_img` on a handle whose array has
`num_of_pixels` elements, at most `2^31`: the header bytes, then blue, green,
red of each pixel in array order. -/
theorem write_img_pixels (env : Env) (h : bmp_file_handle_t) (f : List Byte) (p : Nat)
    (hfp : h.file_ptr = some { bytes := f, pos := p })
    (hlen : h.data.length = num_of_pixels h)
    (hsmall : num_of_pixels h ≤ 2147483648)
    (hok : (bmp_write_img env h).1 = true) :
    ∃ out, (bmp_write_img env h).2.2.1 = some out ∧
      out.bytes = f.take h.header.data_offset ++ h.data.flatMap pixel_bytes ∧
      out.bytes.length = h.header.data_offset + 3 * num_of_pixels h := by
  obtain ⟨hoff, out, ho, hob⟩ := write_img_output env h f p hfp hok
  rw [loop_passes_small _ hsmall, ← hlen, range_getD_eq] at hob
  refine ⟨out, ho, hob, ?_⟩
  rw [hob, List.length_append, List.length_take, Nat.min_eq_left hoff, ← hlen]
  congr 1
  clear hob hlen
  induction h.data with
  | nil => rfl
  | cons a l ih =>
    rw [List.flatMap_cons, List.length_append, ih]
    simp [pixel_bytes]
    omega

/-- Load followed by write, with nothing in between, reproduces the input up
to the end of the pixels that the pixel count covers, when that count is at
most `2^31`. -/
theorem load_write_roundtrip (env : Env) (h : bmp_file_handle_t) (f : List Byte)
    (hfp : h.file_ptr = some { bytes := f, pos := 0 })
    (hv : (bmp_verify env h).1 = true)
    (hsmall : num_of_pixels (bmp_verify env h).2.1 ≤ 2147483648)
    (hl : (bmp_load_img env (bmp_verify env h).2.1).1 = true)
    (hw : (bmp_write_img env (bmp_load_img env (bmp_verify env h).2.1).2.1).1 = true) :
    ∃ out, (bmp_write_img env (bmp_load_img env (bmp_verify env h).2.1).2.1).2.2.1 = some out ∧
      out.bytes = f.take ((bmp_verify env h).2.1.header.data_offset
        + 3 * num_of_pixels (bmp_verify env h).2.1) := by
  obtain ⟨_, _, _, _, _, hres⟩ := verify_true env h f hfp hv
  have hfp2 : (bmp_verify env h).2.1.file_ptr = some { bytes := f, pos := 14 + declared_size f } := by
    rw [hres]
    rfl
  obtain ⟨hhdr, hinfo, _, q, hq⟩ := load_img_frame env _ f _ hfp2
  obtain ⟨hfit, hdata⟩ := load_img_data env _ f _ hfp2 hsmall hl
  have hn : num_of_pixels (bmp_load_img env (bmp_verify env h).2.1).2.1
      = num_of_pixels (bmp_verify env h).2.1 := by
    unfold num_of_pixels
    rw [hinfo]
  have hlen : (bmp_load_img env (bmp_verify env h).2.1).2.1.data.length
      = num_of_pixels (bmp_load_img env (bmp_verify env h).2.1).2.1 := by
    rw [hdata, hn]
    simp
  obtain ⟨hoff, _⟩ := write_img_output env _ f q hq hw
  obtain ⟨out, ho, hob, _⟩ := write_img_pixels env _ f q hq hlen (by rw [hn]; exact hsmall) hw
  refine ⟨out, ho, ?_⟩
  rw [hob, hhdr, hdata]
  rw [hhdr] at hoff
  rcases hfit with h0 | hfit
  · rw [h0]
    simp
  · rw [file_pixels_bytes f _ _ hfit, List.take_add]

/-! ## The claims about the written file and the info buffer -/

/-- C11, the code at the header that declares 65536 x 65536 pixels: after
`bmp_verify` and `bmp_load_img` the handle has data offset 54 and both
dimensions 65536, `bmp_write_img` succeeds, and the output is the 54 header
bytes with no pixel region at all, not 54 + 3 * 65536 * 65536 bytes. -/
theorem output_has_no_pixels_at_65536_squared :
    (sample_loaded_from sample_bmp_huge).header.data_offset = 54 ∧
    (sample_loaded_from sample_bmp_huge).info.img_width = 65536 ∧
    (sample_loaded_from sample_bmp_huge).info.img_height = 65536 ∧
    (bmp_write_img (sample_env sample_bmp_huge) (sample_loaded_from sample_bmp_huge)).1 = true ∧
    (bmp_write_img (sample_env sample_bmp_huge) (sample_loaded_from sample_bmp_huge)).2.2.1.map
      OFILE.bytes = some sample_bmp_huge ∧
    sample_bmp_huge.length = 54 ∧
    sample_bmp_huge.length ≠ 54 + 3 * (65536 * 65536) := by
  decide

/-- C12, the code at the header that declares 65536 x 65536 pixels followed
by twelve bytes: `bmp_verify`, `bmp_load_img` and `bmp_write_img` all
succeed, the output is the 54 header bytes, and that is not the first
54 + 3 * 65536 * 65536 bytes of the 66-byte input. -/
theorem roundtrip_drops_pixels_at_65536_squared :
    (bmp_verify (sample_env sample_bmp_huge_tail)
      (opened_handle "in.bmp" sample_bmp_huge_tail)).1 = true ∧
    (bmp_load_img (sample_env sample_bmp_huge_tail)
      (bmp_verify (sample_env sample_bmp_huge_tail)
        (opened_handle "in.bmp" sample_bmp_huge_tail)).2.1).1 = true ∧
    (bmp_write_img (sample_env sample_bmp_huge_tail)
      (sample_loaded_from sample_bmp_huge_tail)).1 = true ∧
    (sample_loaded_from sample_bmp_huge_tail).header.data_offset = 54 ∧
    (sample_loaded_from sample_bmp_huge_tail).info.img_width = 65536 ∧
    (sample_loaded_from sample_bmp_huge_tail).info.img_height = 65536 ∧
    (bmp_write_img (sample_env sample_bmp_huge_tail)
      (sample_loaded_from sample_bmp_huge_tail)).2.2.1.map OFILE.bytes
        = some (sample_bmp_huge_tail.take 54) ∧
    sample_bmp_huge_tail.take 54 ≠ sample_bmp_huge_tail.take (54 + 3 * (65536 * 65536)) := by
  decide
theorem info_reads_fit_iff (s : Nat) :
    (∀ r ∈ info_field_reads, r.1 + r.2 ≤ s) ↔ 40 ≤ s := by
  simp only [info_field_reads, BMP_INFO_IMG_WIDTH_OFF, BMP_INFO_IMG_HEIGHT_OFF,
    BMP_INFO_PLANES_OFF, BMP_INFO_BIT_CNT_OFF, BMP_INFO_COMPRESSION_OFF, BMP_INFO_IMG_SIZE_OFF,
    BMP_INFO_XRES_OFF, BMP_INFO_YRES_OFF, BMP_INFO_COLOR_NUM_OFF, BMP_INFO_IMP_COLOR_NUM_OFF,
    List.forall_mem_cons, List.not_mem_nil, false_implies, forall_const, and_true]
  omega

/-- The decoded info header is determined by the declared size and the
buffer bytes that the ten loads cover. -/
theorem decoded_info_of_reads (env1 env2 : Env) (f : List Byte)
    (h : ∀ r ∈ info_field_reads, ∀ k, k < r.2 →
      info_mem env1 f (r.1 + k) = info_mem env2 f (r.1 + k)) :
    decoded_info env1 f = decoded_info env2 f := by
  simp only [info_field_reads, BMP_INFO_IMG_WIDTH_OFF, BMP_INFO_IMG_HEIGHT_OFF,
    BMP_INFO_PLANES_OFF, BMP_INFO_BIT_CNT_OFF, BMP_INFO_COMPRESSION_OFF, BMP_INFO_IMG_SIZE_OFF,
    BMP_INFO_XRES_OFF, BMP_INFO_YRES_OFF, BMP_INFO_COLOR_NUM_OFF, BMP_INFO_IMP_COLOR_NUM_OFF,
    List.forall_mem_cons, List.not_mem_nil, false_implies, forall_const, and_true] at h
  obtain ⟨h4, h8, h12, h14, h16, h20, h24, h28, h32, h36⟩ := h
  simp only [decoded_info]
  rw [load32_congr _ _ 4 h4, load32_congr _ _ 8 h8, load16_congr _ _ 12 h12,
    load16_congr _ _ 14 h14, load32_congr _ _ 16 h16, load32_congr _ _ 20 h20,
    load32_congr _ _ 24 h24, load32_congr _ _ 28 h28, load32_congr _ _ 32 h32,
    load32_congr _ _ 36 h36]

/-- C20, the code at the sample image with a 12-byte info header: the magic
is valid, the declared size is 12, the 12 bytes are read and the fields are
extracted, but only the loads at offsets 4 and 8 lie inside the buffer; the
load of 4 bytes at offset 36 ends at 40.  What the other loads deliver is
whatever lies behind the buffer: with zeros there the file is rejected,
with 1 at index 12 and 24 at index 14 the same file is accepted. -/
theorem info_reads_leave_buffer_at_size_12 :
    (bmp_verify (sample_env sample_bmp_core)
      (opened_handle "in.bmp" sample_bmp_core)).2.1.info.info_size = 12 ∧
    (bmp_verify (sample_env sample_bmp_core)
      (opened_handle "in.bmp" sample_bmp_core)).2.1.file_ptr
        = some { bytes := sample_bmp_core, pos := 14 + 12 } ∧
    (bmp_verify (sample_env sample_bmp_core) (opened_handle "in.bmp" sample_bmp_core)).2.2 =
      [Msg.file_info "in.bmp" [38, 131074, 1572865, 0, 0, 0, 0, 0, 0], Msg.not_supported] ∧
    ¬ (∀ r ∈ info_field_reads, r.1 + r.2 ≤ 12) ∧
    info_field_reads.filter (fun r => r.1 + r.2 ≤ 12) = [(4, 4), (8, 4)] ∧
    (36, 4) ∈ info_field_reads ∧
    (bmp_verify (sample_env sample_bmp_core) (opened_handle "in.bmp" sample_bmp_core)).1 = false ∧
    (bmp_verify (sample_env_behind sample_bmp_core)
      (opened_handle "in.bmp" sample_bmp_core)).1 = true ∧
    (bmp_verify (sample_env_behind sample_bmp_core)
      (opened_handle "in.bmp" sample_bmp_core)).2.1.info.planes = 1 ∧
    (bmp_verify (sample_env_behind sample_bmp_core)
      (opened_handle "in.bmp" sample_bmp_core)).2.1.info.bit_cnt = 24 := by
  decide

/-! ## The sample image -/

/-- The sample image declared with 8 bits per pixel in a 40-byte info header
is rejected: `main` ends with status 5, opens no output and never reaches
`bmp_load_img`. -/
theorem sample_8bit_rejected :
    file_field sample_bmp_8bit 28 29 = 8 ∧
    (main (sample_env sample_bmp_8bit) ["img_bin", "in.bmp", "100"]).1 = 5 ∧
    (main (sample_env sample_bmp_8bit) ["img_bin", "in.bmp", "100"]).2.1 = none ∧
    Msg.loading ∉ (main (sample_env sample_bmp_8bit) ["img_bin", "in.bmp", "100"]).2.2 := by
  decide

/-- The sample image loads as its four pixels in file order, and without its
last byte the load fails. -/
theorem sample_load :
    sample_loaded.data =
      [{ red := 10, green := 10, blue := 10 }, { red := 200, green := 200, blue := 200 },
       { red := 50, green := 50, blue := 50 }, { red := 250, green := 250, blue := 250 }] ∧
    (bmp_verify (sample_env (sample_bmp.take 65)) (opened_handle "in.bmp" (sample_bmp.take 65))).1
      = true ∧
    (bmp_load_img (sample_env (sample_bmp.take 65))
      (bmp_verify (sample_env (sample_bmp.take 65))
        (opened_handle "in.bmp" (sample_bmp.take 65))).2.1).1 = false := by
  decide

/-- The sample image with threshold 100: the pixels (10,10,10),
(200,200,200), (50,50,50), (250,250,250) become black, white, black,
white. -/
theorem sample_binarization :
    (bmp_binarization sample_loaded 100).data =
      [{ red := 0, green := 0, blue := 0 }, { red := 255, green := 255, blue := 255 },
       { red := 0, green := 0, blue := 0 }, { red := 255, green := 255, blue := 255 }] := by
  decide

/-- A handle of one pure-white pixel: the pixel turns black with threshold
255 and stays white with threshold 254. -/
theorem sample_white_binarization :
    (bmp_binarization sample_white 255).data = [{ red := 0, green := 0, blue := 0 }] ∧
    (bmp_binarization sample_white 254).data = [{ red := 255, green := 255, blue := 255 }] := by
  decide

/-- The sample image with threshold 0: the run ends with status 0 and its
output is the 54 header bytes followed by twelve bytes 0xFF. -/
theorem sample_threshold_zero :
    (main (sample_env sample_bmp) ["img_bin", "in.bmp", "0"]).1 = 0 ∧
    (main (sample_env sample_bmp) ["img_bin", "in.bmp", "0"]).2.1 =
      some (sample_bmp.take 54 ++ List.replicate 12 255) := by
  decide

/-! ## One row of `2^31 + 1` pixels -/

theorem sample_header_long_length : sample_header_long.length = 54 := rfl

/-- What `bmp_verify` makes of a file that starts with the header of the long
row: it accepts the file and decodes data offset 54 and 2147483649 pixels. -/
theorem long_header_verify (env : Env) (name : String) (f tl : List Byte)
    (hf : f = sample_header_long ++ tl)
    (hre : env.realloc_ok 40 = true) :
    (bmp_verify env (opened_handle name f)).1 = true ∧
    (bmp_verify env (opened_handle name f)).2.1.file_ptr = some { bytes := f, pos := 54 } ∧
    (bmp_verify env (opened_handle name f)).2.1.header.data_offset = 54 ∧
    num_of_pixels (bmp_verify env (opened_handle name f)).2.1 = 2147483649 := by
  subst hf
  have hsz : declared_size (sample_header_long ++ tl) = 40 := rfl
  have hlen : (sample_header_long ++ tl).length = 54 + tl.length := by
    rw [List.length_append, sample_header_long_length]
  have e18 : file_mem (sample_header_long ++ tl) 18 = 1 := rfl
  have e19 : file_mem (sample_header_long ++ tl) 19 = 0 := rfl
  have e20 : file_mem (sample_header_long ++ tl) 20 = 0 := rfl
  have e21 : file_mem (sample_header_long ++ tl) 21 = 128 := rfl
  have e22 : file_mem (sample_header_long ++ tl) 22 = 1 := rfl
  have e23 : file_mem (sample_header_long ++ tl) 23 = 0 := rfl
  have e24 : file_mem (sample_header_long ++ tl) 24 = 0 := rfl
  have e25 : file_mem (sample_header_long ++ tl) 25 = 0 := rfl
  have hw : load32 (info_mem env (sample_header_long ++ tl)) 4 = 2147483649 := by
    have v128 : ((128 : Byte) : Nat) = 128 := rfl
    simp [load32, info_mem, hsz, e18, e19, e20, e21, v128]
  have hh : load32 (info_mem env (sample_header_long ++ tl)) 8 = 1 := by
    simp [load32, info_mem, hsz, e22, e23, e24, e25]
  rw [verify_decoded env _ (sample_header_long ++ tl) rfl (by omega) rfl
    (by rw [hsz]; exact hre) (by omega)]
  refine ⟨rfl, rfl, rfl, ?_⟩
  show (load32 (info_mem env (sample_header_long ++ tl)) 4
    * load32 (info_mem env (sample_header_long ++ tl)) 8) % 2 ^ 32 = 2147483649
  rw [hw, hh]
  norm_num

theorem long_row_getD (f : List Byte) (m j : Nat)
    (hf : f = sample_header_long ++ List.replicate m 10) (h1 : 54 ≤ j) (h2 : j < 54 + m) :
    f.getD j 0 = 10 := by
  subst hf
  rw [List.getD_eq_getElem?_getD,
    List.getElem?_append_right (by rw [sample_header_long_length]; omega),
    List.getElem?_replicate, if_pos (by rw [sample_header_long_length]; omega)]
  rfl

/-- The load of a long row that holds at least `2^31` pixels (10,10,10): it
succeeds, the pixels below `2^31` come from the file, and pixel `2^31` is
what the allocation contained. -/
theorem long_row_load (env : Env) (name : String) (f : List Byte) (m : Nat)
    (hf : f = sample_header_long ++ List.replicate m 10)
    (hre : env.realloc_ok 40 = true) (hm : 3 * 2147483648 ≤ m) :
    (bmp_load_img env (bmp_verify env (opened_handle name f)).2.1).1 = true ∧
    (bmp_load_img env (bmp_verify env (opened_handle name f)).2.1).2.1.data.length
      = 2147483649 ∧
    (∀ i, i < 2147483648 →
      (bmp_load_img env (bmp_verify env (opened_handle name f)).2.1).2.1.data[i]?
        = some { red := 10, green := 10, blue := 10 }) ∧
    (bmp_load_img env (bmp_verify env (opened_handle name f)).2.1).2.1.data[2147483648]?
      = some (env.uninit_pixel 2147483648) := by
  obtain ⟨_, hfp, hoff, hn⟩ := long_header_verify env name f (List.replicate m 10) hf hre
  generalize bmp_verify env (opened_handle name f) = v at hfp hoff hn ⊢
  have hlp : loop_passes (num_of_pixels v.2.1) = 2147483648 := by
    rw [hn]
    rfl
  have hlen : f.length = 54 + m := by
    rw [hf, List.length_append, List.length_replicate, sample_header_long_length]
  have hok : (bmp_load_img env v.2.1).1 = true := by
    cases hb : (bmp_load_img env v.2.1).1 with
    | true => rfl
    | false =>
      have hc := (load_img_fails_iff env v.2.1 _ 54 hfp).1 hb
      rw [hlp, hoff, hlen] at hc
      omega
  obtain ⟨h1, h2, h3⟩ := load_img_pixels env v.2.1 _ 54 hfp hok
  rw [hlp, hoff] at h2
  rw [hlp, hn] at h3
  rw [hn] at h1
  refine ⟨hok, h1, fun i hi => ?_, h3 2147483648 (by omega) (by omega)⟩
  rw [(h2 i hi).2, long_row_getD f m _ hf (by omega) (by omega),
    long_row_getD f m _ hf (by omega) (by omega), long_row_getD f m _ hf (by omega) (by omega)]

theorem fwrite_all (buf : List Byte) (out : OFILE) (h : buf.length ≤ out.room) :
    fwrite buf out = (buf.length, { bytes := out.bytes ++ buf, room := out.room - buf.length }) := by
  simp only [fwrite, List.take_of_length_le h]

theorem write_passes_room (behind : Nat → bmp_pixel_t) :
    ∀ (k i : Nat) (data : List bmp_pixel_t) (out : OFILE),
      3 * k ≤ out.room → (write_passes behind k i data out).1 = true := by
  intro k
  induction k with
  | zero =>
    intro i data out _
    rfl
  | succ k ih =>
    intro i data out hroom
    have h3 : ([(data.getD i (behind i)).blue, (data.getD i (behind i)).green,
        (data.getD i (behind i)).red] : List Byte).length = 3 := rfl
    simp only [write_passes]
    rw [fwrite_all _ _ (by rw [h3]; omega), h3, if_neg (by simp)]
    exact ih _ _ _ (by show 3 * k ≤ out.room - 3; omega)

/-- The call `bmp_write_img` succeeds when the output file can be opened, the
input holds the header bytes and the output has room for the header and for
three bytes for each pass of the loop. -/
theorem write_img_succeeds (env : Env) (h : bmp_file_handle_t) (f : List Byte) (p : Nat)
    (hfp : h.file_ptr = some { bytes := f, pos := p })
    (hwb : env.fopen_wb = true)
    (hoff : h.header.data_offset ≤ f.length)
    (hroom : h.header.data_offset + 3 * loop_passes (num_of_pixels h) ≤ env.out_room) :
    (bmp_write_img env h).1 = true := by
  have hl : (f.take h.header.data_offset).length = h.header.data_offset := by
    rw [List.length_take]
    omega
  simp only [bmp_write_img, hfp, fseek_start, fread_one, Nat.sub_zero, List.drop_zero,
    write_loop_start, hwb, Bool.true_eq_false, if_false]
  have hr : ({ bytes := [], room := env.out_room } : OFILE).room = env.out_room := rfl
  rw [header_buffer_eq f env.junk _ hoff, fwrite_all _ _ (by rw [hl, hr]; omega)]
  simp only [hl]
  rw [if_neg (by omega), write_passes_room _ _ _ _ _ (by show _ ≤ env.out_room - _; omega)]
  rfl

theorem range_map_const {α : Type} (g : Nat → α) (w : α) :
    ∀ k, (∀ j, j < k → g j = w) → (List.range k).map g = List.replicate k w := by
  intro k
  induction k with
  | zero =>
    intro _
    rfl
  | succ k ih =>
    intro h
    rw [List.range_succ, List.map_append, ih (fun j hj => h j (by omega)), List.map_cons,
      List.map_nil, h k (by omega), List.replicate_succ']

/-- The array of one long row of pixels `p` after `bmp_binarization`: pixel
0 is thresholded, pixel 2147483648 is still `p`. -/
theorem sample_row_long_binarization (p : bmp_pixel_t) (t : Nat) :
    num_of_pixels (sample_row_long p) = 2147483649 ∧
    (sample_row_long p).data.length = 2147483649 ∧
    (bmp_binarization (sample_row_long p) t).data[0]? = some (binarized t p) ∧
    (bmp_binarization (sample_row_long p) t).data[2147483648]? = some p := by
  have hn : num_of_pixels (sample_row_long p) = 2147483649 := by
    show (2147483649 * 1) % 2 ^ 32 = 2147483649
    norm_num
  have hlp : loop_passes (num_of_pixels (sample_row_long p)) = 2147483648 := by
    rw [hn]
    rfl
  have hd : (sample_row_long p).data = List.replicate 2147483649 p := rfl
  refine ⟨hn, ?_, ?_, ?_⟩
  · rw [hd, List.length_replicate]
  · rw [binarization_data_get, hlp, if_pos (by omega), hd, List.getElem?_replicate,
      if_pos (by omega)]
    rfl
  · rw [binarization_data_get, hlp, if_neg (by omega), hd, List.getElem?_replicate,
      if_pos (by omega)]

/-- A run of `main` with threshold 0 on a long row that holds at least `2^31`
pixels (10,10,10), with room for the output: it ends with status 0, the
output is the header and `2^31` white pixels, and pixel `2^31` of the array
is what the allocation contained. -/
theorem long_row_run (env : Env) (prog name : String) (f : List Byte) (m : Nat)
    (hf : f = sample_header_long ++ List.replicate m 10)
    (hopen : env.fopen_rb name = some f)
    (hre : env.realloc_ok 40 = true) (hwb : env.fopen_wb = true)
    (hroom : 54 + 3 * 2147483648 ≤ env.out_room) (hm : 3 * 2147483648 ≤ m) :
    (main env [prog, name, "0"]).1 = 0 ∧
    (main env [prog, name, "0"]).2.1 =
      some (sample_header_long ++ List.replicate (3 * 2147483648) 255) ∧
    (bmp_binarization (bmp_load_img env (bmp_verify env (opened_handle name f)).2.1).2.1
      0).data[2147483648]? = some (env.uninit_pixel 2147483648) := by
  obtain ⟨hv, hfp, hoff, hn⟩ := long_header_verify env name f (List.replicate m 10) hf hre
  obtain ⟨hl, _, hpix, hlast⟩ := long_row_load env name f m hf hre hm
  obtain ⟨hhdr, hinfo, _, q, hq⟩ := load_img_frame env _ _ 54 hfp
  have ht : atoi_u32 "0".toList % 256 = 0 := by decide
  have hflen : f.length = 54 + m := by
    rw [hf, List.length_append, List.length_replicate, sample_header_long_length]
  have hmain := main_opened env prog name "0" f hopen (by decide) (by decide)
  simp only [hv, hl, ht, Bool.true_eq_false, if_false] at hmain
  generalize bmp_verify env (opened_handle name f) = v
    at hv hfp hoff hn hl hpix hlast hhdr hinfo hq hmain ⊢
  generalize (bmp_load_img env v.2.1).2.1 = L at hpix hlast hhdr hinfo hq hmain ⊢
  have hnL : num_of_pixels L = 2147483649 := by
    unfold num_of_pixels
    rw [hinfo]
    exact hn
  have hlp : loop_passes (num_of_pixels L) = 2147483648 := by
    rw [hnL]
    rfl
  have hB : ∀ j, j < 2147483648 →
      (bmp_binarization L 0).data[j]? = some { red := 255, green := 255, blue := 255 } := by
    intro j hj
    rw [binarization_data_get, hlp, if_pos hj, hpix j hj, Option.map_some', binarized_zero]
  have hBlast : (bmp_binarization L 0).data[2147483648]? = some (env.uninit_pixel 2147483648) := by
    rw [binarization_data_get, hlp, if_neg (by omega), hlast]
  have hqB : (bmp_binarization L 0).file_ptr = some { bytes := f, pos := q } := hq
  have hoffB : (bmp_binarization L 0).header.data_offset = 54 := by
    show L.header.data_offset = 54
    rw [hhdr]
    exact hoff
  have hlpB : loop_passes (num_of_pixels (bmp_binarization L 0)) = 2147483648 := hlp
  have hw : (bmp_write_img env (bmp_binarization L 0)).1 = true :=
    write_img_succeeds env _ _ q hqB hwb (by rw [hoffB, hflen]; omega)
      (by rw [hoffB, hlpB]; exact hroom)
  obtain ⟨_, out, ho, hob⟩ := write_img_output env _ _ q hqB hw
  have htake : f.take 54 = sample_header_long := by
    rw [hf]
    exact List.take_left' sample_header_long_length
  rw [hoffB, htake,
    range_map_const _ { red := 255, green := 255, blue := 255 } _ (fun j hj => by
      rw [hlpB] at hj
      rw [List.getD_eq_getElem?_getD, Nat.zero_add, hB j hj]
      rfl),
    white_bytes, hlpB] at hob
  simp only [hw, Bool.true_eq_false, if_false] at hmain
  rw [hmain, ho]
  exact ⟨rfl, by rw [← hob]; rfl, hBlast⟩

/-! ## The claims about the short info header and the long row -/

/-- C6, the code at one row of 2147483649 pixels (10,10,10): `bmp_verify`
and `bmp_load_img` succeed with data offset 54 and pixel count 2147483649;
pixel 0 of the array is (10,10,10), but pixel 2147483648 is not the file
bytes 10, 10, 10 at offset 54 + 3 * 2147483648: it is still what the
allocation contained, here (0,0,0), because the `int` counter wrapped
before it got there. -/
theorem load_stops_at_pixel_2147483648 :
    (bmp_verify (sample_env sample_bmp_long) (opened_handle "in.bmp" sample_bmp_long)).1 = true ∧
    (bmp_load_img (sample_env sample_bmp_long)
      (bmp_verify (sample_env sample_bmp_long) (opened_handle "in.bmp" sample_bmp_long)).2.1).1
        = true ∧
    (bmp_verify (sample_env sample_bmp_long)
      (opened_handle "in.bmp" sample_bmp_long)).2.1.header.data_offset = 54 ∧
    num_of_pixels (bmp_verify (sample_env sample_bmp_long)
      (opened_handle "in.bmp" sample_bmp_long)).2.1 = 2147483649 ∧
    sample_bmp_long.getD (54 + 3 * 2147483648) 0 = 10 ∧
    sample_bmp_long.getD (54 + 3 * 2147483648 + 1) 0 = 10 ∧
    sample_bmp_long.getD (54 + 3 * 2147483648 + 2) 0 = 10 ∧
    (bmp_load_img (sample_env sample_bmp_long)
      (bmp_verify (sample_env sample_bmp_long)
        (opened_handle "in.bmp" sample_bmp_long)).2.1).2.1.data[0]?
      = some { red := 10, green := 10, blue := 10 } ∧
    (bmp_load_img (sample_env sample_bmp_long)
      (bmp_verify (sample_env sample_bmp_long)
        (opened_handle "in.bmp" sample_bmp_long)).2.1).2.1.data[2147483648]?
      = some { red := 0, green := 0, blue := 0 } := by
  have hf : sample_bmp_long = sample_header_long ++ List.replicate (3 * 2147483649) 10 := rfl
  obtain ⟨hv, _, hoff, hn⟩ := long_header_verify (sample_env sample_bmp_long) "in.bmp"
    sample_bmp_long _ hf rfl
  obtain ⟨hl, _, hpix, hlast⟩ := long_row_load (sample_env sample_bmp_long) "in.bmp"
    sample_bmp_long _ hf rfl (by omega)
  have hu : (sample_env sample_bmp_long).uninit_pixel 2147483648
      = { red := 0, green := 0, blue := 0 } := rfl
  rw [hu] at hlast
  exact ⟨hv, hl, hoff, hn, long_row_getD sample_bmp_long _ _ hf (by omega) (by omega),
    long_row_getD sample_bmp_long _ _ hf (by omega) (by omega),
    long_row_getD sample_bmp_long _ _ hf (by omega) (by omega),
    hpix 0 (by omega), hlast⟩

/-- C7, the code at the long row cut behind pixel 2147483647: `bmp_verify`
accepts the file with data offset 54 and pixel count n = 2147483649, the
file has 54 + 3 * 2147483648 bytes, fewer than 54 + 3 n, so pixel 2147483648
has no bytes at all; yet `bmp_load_img` returns true. -/
theorem load_accepts_long_row_cut :
    (bmp_verify (sample_env sample_bmp_long_cut)
      (opened_handle "in.bmp" sample_bmp_long_cut)).1 = true ∧
    (bmp_verify (sample_env sample_bmp_long_cut)
      (opened_handle "in.bmp" sample_bmp_long_cut)).2.1.header.data_offset = 54 ∧
    num_of_pixels (bmp_verify (sample_env sample_bmp_long_cut)
      (opened_handle "in.bmp" sample_bmp_long_cut)).2.1 = 2147483649 ∧
    sample_bmp_long_cut.length = 54 + 3 * 2147483648 ∧
    sample_bmp_long_cut.length < 54 + 3 * 2147483649 ∧
    (bmp_load_img (sample_env sample_bmp_long_cut)
      (bmp_verify (sample_env sample_bmp_long_cut)
        (opened_handle "in.bmp" sample_bmp_long_cut)).2.1).1 = true := by
  have hf : sample_bmp_long_cut = sample_header_long ++ List.replicate (3 * 2147483648) 10 :=
    rfl
  obtain ⟨hv, _, hoff, hn⟩ := long_header_verify (sample_env sample_bmp_long_cut) "in.bmp"
    sample_bmp_long_cut _ hf rfl
  obtain ⟨hl, _, _, _⟩ := long_row_load (sample_env sample_bmp_long_cut) "in.bmp"
    sample_bmp_long_cut _ hf rfl (by omega)
  have hlen : sample_bmp_long_cut.length = 54 + 3 * 2147483648 := by
    rw [sample_bmp_long_cut, List.length_append, List.length_replicate,
      sample_header_long_length]
  exact ⟨hv, hoff, hn, hlen, by rw [hlen]; omega, hl⟩

/-- C14, the code at an array of 2147483649 pixels (10,10,10) with threshold
100: the array has as many elements as the handle has pixels, the grey value
of (10,10,10) is below 100 and pixel 0 becomes black, but pixel 2147483648
is still (10,10,10) after `bmp_binarization`, neither black nor white: the
`int` counter wrapped before it got there. -/
theorem binarization_stops_at_pixel_2147483648 :
    (sample_row_long { red := 10, green := 10, blue := 10 }).data.length
      = num_of_pixels (sample_row_long { red := 10, green := 10, blue := 10 }) ∧
    num_of_pixels (sample_row_long { red := 10, green := 10, blue := 10 }) = 2147483649 ∧
    conv_rgb2grey { red := 10, green := 10, blue := 10 } < 100 ∧
    (bmp_binarization (sample_row_long { red := 10, green := 10, blue := 10 }) 100).data[0]?
      = some { red := 0, green := 0, blue := 0 } ∧
    (bmp_binarization (sample_row_long { red := 10, green := 10, blue := 10 })
      100).data[2147483648]? = some { red := 10, green := 10, blue := 10 } := by
  obtain ⟨hn, hlen, h0, hlast⟩ :=
    sample_row_long_binarization { red := 10, green := 10, blue := 10 } 100
  exact ⟨by rw [hlen, hn], hn, by decide, h0, hlast⟩

/-- C15, the code at one row of 2147483649 pixels (10,10,10) with threshold
0: the run of `main` ends with status 0, but the output is the 54 header
bytes followed by 3 * 2147483648 bytes 0xFF, one pixel short of the
2147483649 pixels of the image, and pixel 2147483648 of the array that
`bmp_binarization` returns is not white: it is still what the allocation
contained, here (0,0,0). -/
theorem threshold_zero_misses_pixel_2147483648 :
    (main (sample_env_long sample_bmp_long) ["img_bin", "in.bmp", "0"]).1 = 0 ∧
    num_of_pixels (bmp_verify (sample_env_long sample_bmp_long)
      (opened_handle "in.bmp" sample_bmp_long)).2.1 = 2147483649 ∧
    (main (sample_env_long sample_bmp_long) ["img_bin", "in.bmp", "0"]).2.1 =
      some (sample_header_long ++ List.replicate (3 * 2147483648) 255) ∧
    (bmp_binarization (bmp_load_img (sample_env_long sample_bmp_long)
      (bmp_verify (sample_env_long sample_bmp_long)
        (opened_handle "in.bmp" sample_bmp_long)).2.1).2.1 0).data[2147483648]?
      = some { red := 0, green := 0, blue := 0 } := by
  have hf : sample_bmp_long = sample_header_long ++ List.replicate (3 * 2147483649) 10 := rfl
  obtain ⟨_, _, _, hn⟩ := long_header_verify (sample_env_long sample_bmp_long) "in.bmp"
    sample_bmp_long _ hf rfl
  obtain ⟨h0, hout, hlast⟩ := long_row_run (sample_env_long sample_bmp_long) "img_bin" "in.bmp"
    sample_bmp_long _ hf rfl rfl rfl (by show 54 + 3 * 2147483648 ≤ 8589934592; omega) (by omega)
  have hu : (sample_env_long sample_bmp_long).uninit_pixel 2147483648
      = { red := 0, green := 0, blue := 0 } := rfl
  rw [hu] at hlast
  exact ⟨h0, hn, hout, hlast⟩

/-- C16, the code at an array of 2147483649 pure-white pixels with threshold
255: the grey value of (255,255,255) is 254 and no grey value exceeds 254,
so pixel 0 becomes black; but pixel 2147483648 is still white after
`bmp_binarization`, although the threshold is above 254: the `int` counter
wrapped before it got there. -/
theorem white_pixel_2147483648_survives_255 :
    conv_rgb2grey { red := 255, green := 255, blue := 255 } = 254 ∧
    (∀ p : bmp_pixel_t, conv_rgb2grey p ≤ 254) ∧
    (sample_row_long { red := 255, green := 255, blue := 255 }).data.length
      = num_of_pixels (sample_row_long { red := 255, green := 255, blue := 255 }) ∧
    (bmp_binarization (sample_row_long { red := 255, green := 255, blue := 255 }) 255).data[0]?
      = some { red := 0, green := 0, blue := 0 } ∧
    (bmp_binarization (sample_row_long { red := 255, green := 255, blue := 255 })
      255).data[2147483648]? = some { red := 255, green := 255, blue := 255 } := by
  obtain ⟨hn, hlen, h0, hlast⟩ :=
    sample_row_long_binarization { red := 255, green := 255, blue := 255 } 255
  exact ⟨grey_white, grey_le_254, by rw [hlen, hn], h0, hlast⟩

end BmpBin
